import Mathlib

/-!
Shallow embedding of the git-manager commit-move tooling.

The repository drives an external `git` process; the embedding models the
tool's own control flow exactly, and treats every git query (branch
existence, rev-list output, cherry-pick success, conflicted-file listing,
`git status` text, remote default branch, push success) as an input supplied
by an environment record.  Mutating git commands issued by the tool are
recorded in an explicit trace.

Two front ends implement the commit-move engine:
`push_gui.py` (`GitManagerGUI.action_move`) and `push.py` (`move_commits`);
both are embedded below, together with the repository scanner
(`repo_scanner._pending_count`), the working-tree guard
(`working_tree_manager.WorkingTreeManager`), the numeric keypad dialog
(`push_gui.NumericKeypadDialog`), and the timestamp helpers
(`push_gui.now_iso`, `push.now_iso`).
-/

/-- Commit identifiers as printed by `git rev-list`. -/
abbrev CommitId := String

/-- Author metadata of one mainline commit as the pre-push validation reads
it back through `git log` (`%ad` with `--date=short`, `%an`, `%ae`). -/
structure MCommit where
  authorDate : String
  authorName : String
  authorEmail : String
  deriving DecidableEq

/-- Mutating git commands the tool can issue; read-only queries are answered
by the environment and are not traced. -/
inductive GitCmd where
  | checkout (branch : String)
  | cherryPickNoCommit (c : CommitId)
  | cherryPickPlain (c : CommitId)
  | cherryPickAbort
  | cherryPickSkip
  | checkoutOurs
  | checkoutTheirs
  | addAll
  | commitWithDates (date : String)
  | stashPush (withUntracked : Bool)
  | stashPop
  | resetHard (target : String)
  | branchCreate (name start : String)
  | push (branch : String)
  | mergeAbort
  | rebaseAbort
  deriving DecidableEq

/-- The distinct `GitManagerError` exits of the two engines, keyed by the
message raised in the source. -/
inductive GMError where
  | identityNotConfigured
  | localCommitMissing
  | baseBranchMissing
  | workingTreeNotClean
  | noCommitsToProcess
  | invalidNumber
  | conflictResolutionCancelled
  | invalidConflictChoice
  | cherryPickConflicts (c : CommitId)
  | cherryPickAbortedManual
  | pickOtherFailure (c : CommitId)
  | commitNothingToCommit (c : CommitId)
  | remoteHeadMismatch (remoteHead target : String)
  | authorDatesNotToday (count : Nat)
  | authorEmailMismatch (expected : String)
  | authorNameMismatch (expected : String)
  | pushFailed
  | rewriteConflict (c : CommitId)
  deriving DecidableEq

/-- Outcome of one `git cherry-pick --no-commit <c>` attempt, as the engines
observe it: exit status, the `diff --name-only --diff-filter=U` listing, the
`git status` text, and whether the resulting index has any changes. -/
inductive PickOutcome where
  | picked (indexEmpty : Bool)
  | conflictFail
  | emptyFail
  | otherFail
  deriving DecidableEq

/-- Outcome of one plain `git cherry-pick <c>` during staging
reconciliation. -/
inductive ReconOutcome where
  | picked
  | emptyFail
  | conflictFail
  deriving DecidableEq

/-- The four resolutions `GitManagerGUI._choose_conflict_resolution` can
return. -/
inductive Resolution where
  | ours
  | theirs
  | abortAll
  | skip
  deriving DecidableEq

/-- Python s[:n], computed on the character list so that proofs can
evaluate it. -/
def py_take (s : String) (n : Nat) : String :=
  String.mk (s.data.take n)

/-- Python str.strip(): drop whitespace from both ends. -/
def py_strip (s : String) : String :=
  String.mk (((s.data.dropWhile Char.isWhitespace).reverse.dropWhile Char.isWhitespace).reverse)

/-- Python str.lower() for the ASCII answers the tool reads. -/
def py_lower (s : String) : String :=
  String.mk (s.data.map Char.toLower)

/-- Structural test that the first list is an initial run of the second. -/
def list_starts_with : List Char → List Char → Bool
  | [], _ => true
  | _ :: _, [] => false
  | p :: ps, c :: cs => (p = c) && list_starts_with ps cs

/-- Python str.startswith. -/
def py_startswith (s pre : String) : Bool :=
  list_starts_with pre.data s.data

/-- GitManagerGUI._choose_conflict_resolution: `None` or an empty answer is
"Conflict resolution cancelled"; otherwise the stripped answer must be one
of "1".."4"; anything else is "Invalid conflict resolution choice". -/
def choose_conflict_resolution (answer : Option String) : Except GMError Resolution :=
  match answer with
  | none => Except.error GMError.conflictResolutionCancelled
  | some s =>
    if s = "" then Except.error GMError.conflictResolutionCancelled
    else
      if py_strip s = "1" then Except.ok Resolution.ours
      else if py_strip s = "2" then Except.ok Resolution.theirs
      else if py_strip s = "3" then Except.ok Resolution.abortAll
      else if py_strip s = "4" then Except.ok Resolution.skip
      else Except.error GMError.invalidConflictChoice

/-- Observable working-tree state through the tool's three probes:
`git diff --quiet` (unstaged changes to tracked files),
`git diff --cached --quiet` (staged changes), and untracked files, which
neither probe reports. -/
structure WorkingTree where
  unstagedChanges : Bool
  stagedChanges : Bool
  untrackedFiles : Bool
  deriving DecidableEq

/-- WorkingTreeManager.is_clean / push.working_tree_clean:
`git diff --quiet` and `git diff --cached --quiet` both succeed. -/
def is_clean (wt : WorkingTree) : Bool :=
  !wt.unstagedChanges && !wt.stagedChanges

/-- WorkingTreeManager.stash / push.stash_changes: the exact argument list
passed to git. -/
def stash_args (message : String) : List String :=
  ["stash", "push", "-u", "-m", message]

/-- Repository ref state as `repo_scanner._pending_count` queries it. -/
structure ScanRepo where
  localCommitExists : Bool
  headsExists : String → Bool
  originExists : String → Bool
  countRange : String → String → Nat
  countBranch : String → Nat

/-- repo_scanner._pending_count: three-way dispatch on the current branch.
On `local_commit` it counts `base..local_commit`; on the base branch it
counts `origin/base..base` when the remote tracking branch exists and
otherwise the whole branch; on any other branch it counts `base..current`. -/
def pending_count (r : ScanRepo) (base_branch current_branch : String) : Nat :=
  if current_branch = "local_commit" then
    if !r.localCommitExists then 0
    else if !r.headsExists base_branch then 0
    else r.countRange base_branch "local_commit"
  else if current_branch = base_branch then
    if !r.headsExists base_branch then 0
    else if r.originExists base_branch then r.countRange ("origin/" ++ base_branch) base_branch
    else r.countBranch base_branch
  else
    if !r.headsExists base_branch then 0
    else r.countRange base_branch current_branch

/-- NumericKeypadDialog._on_ok: accept the entered value iff it lies in
`[minvalue, maxvalue]`; otherwise the dialog rejects it and stays open. -/
def keypad_on_ok (value minvalue maxvalue : Nat) : Option Nat :=
  if minvalue ≤ value ∧ value ≤ maxvalue then some value else none

/-- Python str.isdigit for ASCII input: nonempty and all characters are
digits. -/
def py_isdigit (s : String) : Bool :=
  !s.data.isEmpty && s.data.all Char.isDigit

/-- Decimal accumulation underlying `py_int`. -/
def py_digits_to_nat : List Char → Nat → Nat
  | [], acc => acc
  | c :: cs, acc => py_digits_to_nat cs (acc * 10 + (c.toNat - 48))

/-- Python int(...) on a string already checked by isdigit. -/
def py_int (s : String) : Nat :=
  py_digits_to_nat s.data 0

/-- The fields of a Python datetime value that the two `now_iso` helpers
format; `utcOffsetMinutes = none` models a naive datetime. -/
structure PyDateTime where
  year : Nat
  month : Nat
  day : Nat
  hour : Nat
  minute : Nat
  second : Nat
  utcOffsetMinutes : Option Int
  deriving DecidableEq

/-- Two-digit zero padding as strftime does for %m %d %H %M %S. -/
def pad2 (n : Nat) : String :=
  if n < 10 then "0" ++ Nat.repr n else Nat.repr n

/-- strftime "%Y-%m-%d". -/
def fmt_date (t : PyDateTime) : String :=
  Nat.repr t.year ++ "-" ++ pad2 t.month ++ "-" ++ pad2 t.day

/-- strftime "%H:%M:%S". -/
def fmt_time (t : PyDateTime) : String :=
  pad2 t.hour ++ ":" ++ pad2 t.minute ++ ":" ++ pad2 t.second

/-- strftime "%z": empty for a naive datetime, otherwise signed HHMM. -/
def fmt_percent_z (t : PyDateTime) : String :=
  match t.utcOffsetMinutes with
  | none => ""
  | some off =>
    let sign := if off < 0 then "-" else "+"
    let a := off.natAbs
    sign ++ pad2 (a / 60) ++ pad2 (a % 60)

/-- strftime "%Y-%m-%dT%H:%M:%S%z". -/
def strftime_iso_z (t : PyDateTime) : String :=
  fmt_date t ++ "T" ++ fmt_time t ++ fmt_percent_z t

/-- push_gui.now_iso: datetime.utcnow() is naive, so %z renders empty. -/
def gui_now_iso (utcFields : PyDateTime) : String :=
  strftime_iso_z { utcFields with utcOffsetMinutes := none }

/-- push.now_iso: datetime.now(timezone.utc) is aware with offset zero. -/
def cli_now_iso (utcFields : PyDateTime) : String :=
  strftime_iso_z { utcFields with utcOffsetMinutes := some 0 }

/-- push_gui.GitManagerGUI.action_move line 589: today is now_iso()[:10]. -/
def gui_today (utcFields : PyDateTime) : String :=
  py_take (gui_now_iso utcFields) 10

/-- push.move_commits line 280: today is the local calendar date from
datetime.now().strftime("%Y-%m-%d"). -/
def cli_today (localFields : PyDateTime) : String :=
  fmt_date localFields

/-!
GUI commit-move engine: `GitManagerGUI.action_move` in push_gui.py.
-/

/-- Everything `action_move` reads from git, dialogs, and the filesystem
during one invocation, fixed up front. -/
structure GuiEnv where
  cfgName : String
  cfgEmail : String
  localCommitOk : Bool
  baseBranch : String
  currentBranch : String
  pending : Nat
  dialogResult : Option Nat
  stepAnswer : Bool
  tree : WorkingTree
  stashAnswer : Bool
  mergeHeadExists : Bool
  cherryPickHeadExists : Bool
  rebaseMergeExists : Bool
  commitList : List CommitId
  stepConfirm : CommitId → Bool
  pickOutcome : CommitId → PickOutcome
  conflictAnswer : CommitId → Option String
  nowIsoValue : String
  nowIsoAtValidation : String
  remoteHeadLine : Option String
  initialMainline : List MCommit
  pushOk : Bool
  backupOk : Bool
  backupName : String
  remainingAfterPush : List CommitId
  reconOutcome : CommitId → ReconOutcome
  popOk : Bool

/-- How one `action_move` / `move_commits` invocation ended. -/
inductive MoveResult where
  | noCommits
  | cancelled
  | declinedStash
  | noOp
  | fatal (e : GMError)
  | success
  deriving DecidableEq

/-- Observable result of one move invocation: outcome, the commits that
produced new commit objects on the mainline branch, the final mainline
history (newest first), whether a stash was created, the trace of mutating
git commands, and what pre-push validation saw. -/
structure MoveRun where
  result : MoveResult
  processed : List CommitId
  mainline : List MCommit
  stashed : Bool
  trace : List GitCmd
  validationRan : Bool
  validated : List MCommit
  pushRan : Bool
  deriving DecidableEq

/-- State threaded through the per-commit replay loop. -/
structure LoopSt where
  processed : List CommitId
  mainline : List MCommit
  trace : List GitCmd
  deriving DecidableEq

/-- Author metadata of a commit created during the move.  The commit
command runs with GIT_AUTHOR_DATE = GIT_COMMITTER_DATE = the operation
start timestamp and the configured identity, so `git log --date=short`
later reports the first ten characters of that timestamp and the
configured name/email. -/
def gui_new_commit (env : GuiEnv) : MCommit :=
  { authorDate := py_take env.nowIsoValue 10
    authorName := env.cfgName
    authorEmail := env.cfgEmail }

/-- The per-commit replay loop of action_move (push_gui.py lines 482-557):
optional step confirmation, `cherry-pick --no-commit`, four-way conflict
resolution, sequencer skip on an empty failed pick, skip without commit on
an empty index after a successful pick, commit with forced dates
otherwise. -/
def gui_replay_loop (env : GuiEnv) (stepMode : Bool) :
    List CommitId → LoopSt → LoopSt × Option GMError
  | [], s => (s, none)
  | c :: rest, s =>
    if stepMode && !env.stepConfirm c then (s, none)
    else
      match env.pickOutcome c with
      | PickOutcome.picked indexEmpty =>
        let s1 : LoopSt := { s with trace := s.trace ++ [GitCmd.cherryPickNoCommit c] }
        if indexEmpty then
          gui_replay_loop env stepMode rest s1
        else
          gui_replay_loop env stepMode rest
            { s1 with
              trace := s1.trace ++ [GitCmd.commitWithDates env.nowIsoValue]
              mainline := gui_new_commit env :: s1.mainline
              processed := s1.processed ++ [c] }
      | PickOutcome.conflictFail =>
        let s1 : LoopSt := { s with trace := s.trace ++ [GitCmd.cherryPickNoCommit c] }
        match choose_conflict_resolution (env.conflictAnswer c) with
        | Except.error e =>
          ({ s1 with trace := s1.trace ++ [GitCmd.cherryPickAbort] }, some e)
        | Except.ok Resolution.ours =>
          gui_replay_loop env stepMode rest
            { s1 with
              trace := s1.trace ++
                [GitCmd.checkoutOurs, GitCmd.addAll, GitCmd.commitWithDates env.nowIsoValue]
              mainline := gui_new_commit env :: s1.mainline
              processed := s1.processed ++ [c] }
        | Except.ok Resolution.theirs =>
          gui_replay_loop env stepMode rest
            { s1 with
              trace := s1.trace ++
                [GitCmd.checkoutTheirs, GitCmd.addAll, GitCmd.commitWithDates env.nowIsoValue]
              mainline := gui_new_commit env :: s1.mainline
              processed := s1.processed ++ [c] }
        | Except.ok Resolution.skip =>
          gui_replay_loop env stepMode rest
            { s1 with trace := s1.trace ++ [GitCmd.cherryPickAbort] }
        | Except.ok Resolution.abortAll =>
          ({ s1 with trace := s1.trace ++ [GitCmd.cherryPickAbort] },
            some GMError.cherryPickAbortedManual)
      | PickOutcome.emptyFail =>
        gui_replay_loop env stepMode rest
          { s with trace := s.trace ++ [GitCmd.cherryPickNoCommit c, GitCmd.cherryPickSkip] }
      | PickOutcome.otherFail =>
        ({ s with trace := s.trace ++ [GitCmd.cherryPickNoCommit c] },
          some (GMError.pickOtherFailure c))

/-- The three pre-push checks shared verbatim by both engines: remote
default branch, author dates, author email, author name; first failure
wins.  `window` is what `git log -n <count>` returned. -/
def author_checks (window : List MCommit) (today expectedEmail expectedName : String) :
    Option GMError :=
  let badDates := window.filter (fun mc => mc.authorDate ≠ "" ∧ mc.authorDate ≠ today)
  if badDates ≠ [] then some (GMError.authorDatesNotToday badDates.length)
  else if window.any (fun mc => decide (mc.authorEmail ≠ "" ∧ mc.authorEmail ≠ expectedEmail)) then
    some (GMError.authorEmailMismatch expectedEmail)
  else if window.any (fun mc => decide (mc.authorName ≠ "" ∧ mc.authorName ≠ expectedName)) then
    some (GMError.authorNameMismatch expectedName)
  else none

/-- Pre-push validation: the first "HEAD branch:" line of
`git remote show origin` (if any) must name the target branch, then the
author checks run. -/
def pre_push_validation (remoteHeadLine : Option String) (target : String)
    (window : List MCommit) (today expectedEmail expectedName : String) : Option GMError :=
  match remoteHeadLine with
  | some h =>
    if h ≠ "" ∧ h ≠ target then some (GMError.remoteHeadMismatch h target)
    else author_checks window today expectedEmail expectedName
  | none => author_checks window today expectedEmail expectedName

/-- GUI staging-rewrite loop (push_gui.py lines 615-629): plain cherry-pick
per remaining commit; an empty failed pick is skipped via the sequencer,
any other failure aborts and is fatal. -/
def gui_rewrite_loop (env : GuiEnv) :
    List CommitId → List GitCmd → List GitCmd × Option GMError
  | [], tr => (tr, none)
  | c :: rest, tr =>
    match env.reconOutcome c with
    | ReconOutcome.picked => gui_rewrite_loop env rest (tr ++ [GitCmd.cherryPickPlain c])
    | ReconOutcome.emptyFail =>
      gui_rewrite_loop env rest (tr ++ [GitCmd.cherryPickPlain c, GitCmd.cherryPickSkip])
    | ReconOutcome.conflictFail =>
      (tr ++ [GitCmd.cherryPickPlain c, GitCmd.cherryPickAbort],
        some (GMError.rewriteConflict c))

/-- A run that ended before any mutation. -/
def gui_base_run (env : GuiEnv) (r : MoveResult) : MoveRun :=
  { result := r, processed := [], mainline := env.initialMainline, stashed := false
    trace := [], validationRan := false, validated := [], pushRan := false }

/-- GitManagerGUI._abort_in_progress_ops: best-effort aborts of a leftover
merge / cherry-pick / rebase. -/
def gui_abort_in_progress (env : GuiEnv) : List GitCmd :=
  (if env.mergeHeadExists then [GitCmd.mergeAbort] else []) ++
  (if env.cherryPickHeadExists then [GitCmd.cherryPickAbort] else []) ++
  (if env.rebaseMergeExists then [GitCmd.rebaseAbort] else [])

/-- Working-tree guard (push_gui.py lines 458-468): `none` means the user
declined the stash prompt; otherwise whether a stash was created and the
commands issued. -/
def gui_tree_guard (env : GuiEnv) : Option (Bool × List GitCmd) :=
  if is_clean env.tree then some (false, [])
  else if !env.stashAnswer then none
  else some (true, gui_abort_in_progress env ++ [GitCmd.stashPush true])

/-- Final stash restore (push_gui.py lines 637-643) and successful exit. -/
def gui_finish_stash (env : GuiEnv) (stashed : Bool) (tr : List GitCmd)
    (s : LoopSt) (window : List MCommit) : MoveRun :=
  { result := MoveResult.success, processed := s.processed, mainline := s.mainline
    stashed := stashed
    trace := if stashed then tr ++ [GitCmd.checkout env.currentBranch, GitCmd.stashPop] else tr
    validationRan := true, validated := window, pushRan := true }

/-- Post-push phase (push_gui.py lines 607-635): backup branch
(best-effort), then either rewrite local_commit from the remaining commits
or reset it straight to the base branch. -/
def gui_reconcile (env : GuiEnv) (stashed : Bool) (s : LoopSt) (window : List MCommit) :
    MoveRun :=
  if env.remainingAfterPush = [] then
    gui_finish_stash env stashed
      (s.trace ++ [GitCmd.push env.baseBranch] ++
        (if env.backupOk then [GitCmd.branchCreate env.backupName "local_commit"] else []) ++
        [GitCmd.checkout "local_commit", GitCmd.resetHard env.baseBranch]) s window
  else
    match gui_rewrite_loop env env.remainingAfterPush
      (s.trace ++ [GitCmd.push env.baseBranch] ++
        (if env.backupOk then [GitCmd.branchCreate env.backupName "local_commit"] else []) ++
        [GitCmd.checkout "local_commit", GitCmd.resetHard env.baseBranch]) with
    | (trw, some e) =>
      { result := MoveResult.fatal e, processed := s.processed, mainline := s.mainline
        stashed := stashed, trace := trw, validationRan := true, validated := window
        pushRan := true }
    | (trw, none) => gui_finish_stash env stashed trw s window

/-- Everything after the replay loop (push_gui.py lines 559-643): the
empty-processed no-op exit, pre-push validation over the last
`len(processed)` commits, push, reconciliation, stash restore.  A raised
GitManagerError lands in the except handler, which only reports it. -/
def gui_after_loop (env : GuiEnv) (stashed : Bool) (s : LoopSt) (lerr : Option GMError) :
    MoveRun :=
  match lerr with
  | some e =>
    { result := MoveResult.fatal e, processed := s.processed, mainline := s.mainline
      stashed := stashed, trace := s.trace, validationRan := false, validated := []
      pushRan := false }
  | none =>
    if s.processed.length = 0 then
      { result := MoveResult.noOp, processed := s.processed, mainline := s.mainline
        stashed := stashed
        trace := s.trace ++ [GitCmd.checkout env.currentBranch] ++
          (if stashed then [GitCmd.stashPop] else [])
        validationRan := false, validated := [], pushRan := false }
    else
      match pre_push_validation env.remoteHeadLine env.baseBranch
          (s.mainline.take s.processed.length)
          (py_take env.nowIsoAtValidation 10) env.cfgEmail env.cfgName with
      | some e =>
        { result := MoveResult.fatal e, processed := s.processed, mainline := s.mainline
          stashed := stashed, trace := s.trace, validationRan := true
          validated := s.mainline.take s.processed.length, pushRan := false }
      | none =>
        if !env.pushOk then
          { result := MoveResult.fatal GMError.pushFailed, processed := s.processed
            mainline := s.mainline, stashed := stashed
            trace := s.trace ++ [GitCmd.push env.baseBranch]
            validationRan := true, validated := s.mainline.take s.processed.length
            pushRan := true }
        else
          gui_reconcile env stashed s (s.mainline.take s.processed.length)

/-- The tail of action_move once the guard has decided (push_gui.py lines
470-643): truncate the commit list, check out the base branch, run the
replay loop, then hand over to `gui_after_loop`. -/
def gui_with_guard (env : GuiEnv) (num : Nat) (stepMode stashed : Bool)
    (tr0 : List GitCmd) : MoveRun :=
  if env.commitList.take num = [] then
    { gui_base_run env (MoveResult.fatal GMError.noCommitsToProcess) with
      stashed := stashed, trace := tr0 }
  else
    match gui_replay_loop env stepMode (env.commitList.take num)
      { processed := [], mainline := env.initialMainline
        trace := tr0 ++ [GitCmd.checkout env.baseBranch] } with
    | (s1, lerr) => gui_after_loop env stashed s1 lerr

/-- GitManagerGUI.action_move, start to finish. -/
def gui_action_move (env : GuiEnv) : MoveRun :=
  if env.cfgName = "" ∨ env.cfgEmail = "" then
    gui_base_run env (MoveResult.fatal GMError.identityNotConfigured)
  else if !env.localCommitOk then
    gui_base_run env (MoveResult.fatal GMError.localCommitMissing)
  else if env.pending = 0 then
    gui_base_run env MoveResult.noCommits
  else
    match env.dialogResult with
    | none => gui_base_run env MoveResult.cancelled
    | some num =>
      match gui_tree_guard env with
      | none => gui_base_run env MoveResult.declinedStash
      | some (stashed, tr0) =>
        gui_with_guard env num (if num > 1 then env.stepAnswer else false) stashed tr0

/-!
CLI commit-move engine: `move_commits` in push.py.
-/

/-- Everything `move_commits` reads during one invocation. -/
structure CliEnv where
  cfgName : String
  cfgEmail : String
  localCommitOk : Bool
  baseExists : Bool
  baseBranch : String
  currentBranch : String
  pending : Nat
  rawInput : String
  tree : WorkingTree
  stashAnswerRaw : String
  commitList : List CommitId
  pickOutcome : CommitId → PickOutcome
  nowIsoValue : String
  localToday : String
  remoteHeadLine : Option String
  initialMainline : List MCommit
  pushOk : Bool
  remainingAfterPush : List CommitId
  reconOutcome : CommitId → ReconOutcome
  popOk : Bool

/-- A CLI run that ended before any mutation. -/
def cli_base_run (env : CliEnv) (r : MoveResult) : MoveRun :=
  { result := r, processed := [], mainline := env.initialMainline, stashed := false
    trace := [], validationRan := false, validated := [], pushRan := false }

/-- Author metadata of a commit created by the CLI move; analogous to
`gui_new_commit` (the CLI timestamp carries a +0000 suffix, its first ten
characters are still the UTC date). -/
def cli_new_commit (env : CliEnv) : MCommit :=
  { authorDate := py_take env.nowIsoValue 10
    authorName := env.cfgName
    authorEmail := env.cfgEmail }

/-- The per-commit replay loop of move_commits (push.py lines 242-264).
Unlike the GUI loop there is no step mode and no conflict menu: a conflicted
cherry-pick is aborted and re-raised; a failed pick whose status says
"nothing to commit" is skipped via the sequencer; after a successful
`--no-commit` pick the CLI always runs `git commit`, which exits non-zero
("nothing to commit") when the pick left an empty index, so run_git_env
raises GitManagerError. -/
def cli_replay_loop (env : CliEnv) :
    List CommitId → LoopSt → LoopSt × Option GMError
  | [], s => (s, none)
  | c :: rest, s =>
    match env.pickOutcome c with
    | PickOutcome.picked indexEmpty =>
      let s1 : LoopSt := { s with trace := s.trace ++ [GitCmd.cherryPickNoCommit c] }
      if indexEmpty then
        (s1, some (GMError.commitNothingToCommit c))
      else
        cli_replay_loop env rest
          { s1 with
            trace := s1.trace ++ [GitCmd.commitWithDates env.nowIsoValue]
            mainline := cli_new_commit env :: s1.mainline
            processed := s1.processed ++ [c] }
    | PickOutcome.conflictFail =>
      ({ s with trace := s.trace ++ [GitCmd.cherryPickNoCommit c, GitCmd.cherryPickAbort] },
        some (GMError.cherryPickConflicts c))
    | PickOutcome.emptyFail =>
      cli_replay_loop env rest
        { s with trace := s.trace ++ [GitCmd.cherryPickNoCommit c, GitCmd.cherryPickSkip] }
    | PickOutcome.otherFail =>
      ({ s with trace := s.trace ++ [GitCmd.cherryPickNoCommit c] },
        some (GMError.pickOtherFailure c))

/-- CLI staging-rewrite loop (push.py lines 304-311): plain cherry-pick per
remaining commit; ANY failure — including an already-applied empty commit —
is aborted and raised as "Resolve manually"; there is no sequencer skip
here. -/
def cli_rewrite_loop (env : CliEnv) :
    List CommitId → List GitCmd → List GitCmd × Option GMError
  | [], tr => (tr, none)
  | c :: rest, tr =>
    match env.reconOutcome c with
    | ReconOutcome.picked => cli_rewrite_loop env rest (tr ++ [GitCmd.cherryPickPlain c])
    | _ =>
      (tr ++ [GitCmd.cherryPickPlain c, GitCmd.cherryPickAbort],
        some (GMError.rewriteConflict c))

/-- Final stash restore of the CLI (push.py lines 318-323). -/
def cli_finish_stash (env : CliEnv) (stashed : Bool) (tr : List GitCmd)
    (s : LoopSt) (window : List MCommit) : MoveRun :=
  { result := MoveResult.success, processed := s.processed, mainline := s.mainline
    stashed := stashed
    trace := if stashed then tr ++ [GitCmd.checkout env.currentBranch, GitCmd.stashPop] else tr
    validationRan := true, validated := window, pushRan := true }

/-- CLI post-push phase (push.py lines 300-316): no backup branch; rewrite
local_commit from the remaining commits, or reset it straight to base. -/
def cli_reconcile (env : CliEnv) (stashed : Bool) (s : LoopSt) (window : List MCommit) :
    MoveRun :=
  if env.remainingAfterPush = [] then
    cli_finish_stash env stashed
      (s.trace ++ [GitCmd.push env.baseBranch] ++
        [GitCmd.checkout "local_commit", GitCmd.resetHard env.baseBranch]) s window
  else
    match cli_rewrite_loop env env.remainingAfterPush
      (s.trace ++ [GitCmd.push env.baseBranch] ++
        [GitCmd.checkout "local_commit", GitCmd.resetHard env.baseBranch]) with
    | (trw, some e) =>
      { result := MoveResult.fatal e, processed := s.processed, mainline := s.mainline
        stashed := stashed, trace := trw, validationRan := true, validated := window
        pushRan := true }
    | (trw, none) => cli_finish_stash env stashed trw s window

/-- Everything after the CLI replay loop (push.py lines 267-323).  Unlike
the GUI there is no empty-processed no-op check: validation always runs,
and it reads the last `num` commits of the mainline branch
(`git log -n num`), where `num` is the user's target count — not the number
of commits actually created. -/
def cli_after_loop (env : CliEnv) (num : Nat) (stashed : Bool) (s : LoopSt)
    (lerr : Option GMError) : MoveRun :=
  match lerr with
  | some e =>
    { result := MoveResult.fatal e, processed := s.processed, mainline := s.mainline
      stashed := stashed, trace := s.trace, validationRan := false, validated := []
      pushRan := false }
  | none =>
    match pre_push_validation env.remoteHeadLine env.baseBranch (s.mainline.take num)
        env.localToday env.cfgEmail env.cfgName with
    | some e =>
      { result := MoveResult.fatal e, processed := s.processed, mainline := s.mainline
        stashed := stashed, trace := s.trace, validationRan := true
        validated := s.mainline.take num, pushRan := false }
    | none =>
      if !env.pushOk then
        { result := MoveResult.fatal GMError.pushFailed, processed := s.processed
          mainline := s.mainline, stashed := stashed
          trace := s.trace ++ [GitCmd.push env.baseBranch]
          validationRan := true, validated := s.mainline.take num, pushRan := true }
      else
        cli_reconcile env stashed s (s.mainline.take num)

/-- The tail of move_commits once the guard has decided (push.py lines
235-323): truncate the commit list, check out the base branch, run the
replay loop, then hand over to `cli_after_loop`. -/
def cli_with_guard (env : CliEnv) (num : Nat) (stashed : Bool)
    (tr0 : List GitCmd) : MoveRun :=
  if env.commitList.take num = [] then
    { cli_base_run env (MoveResult.fatal GMError.noCommitsToProcess) with
      stashed := stashed, trace := tr0 }
  else
    match cli_replay_loop env (env.commitList.take num)
      { processed := [], mainline := env.initialMainline
        trace := tr0 ++ [GitCmd.checkout env.baseBranch] } with
    | (s1, lerr) => cli_after_loop env num stashed s1 lerr

/-- push.move_commits, start to finish.  Input and working-tree guards
happen before any mutating command: a non-digit answer, zero, or a value
above the refreshed pending count raises "Invalid number" with nothing
touched. -/
def cli_move_commits (env : CliEnv) : MoveRun :=
  if !env.localCommitOk then
    cli_base_run env (MoveResult.fatal GMError.localCommitMissing)
  else if !env.baseExists then
    cli_base_run env (MoveResult.fatal GMError.baseBranchMissing)
  else if env.pending = 0 then
    cli_base_run env MoveResult.noCommits
  else if !py_isdigit env.rawInput then
    cli_base_run env (MoveResult.fatal GMError.invalidNumber)
  else
    if py_int env.rawInput = 0 ∨ py_int env.rawInput > env.pending then
      cli_base_run env (MoveResult.fatal GMError.invalidNumber)
    else if is_clean env.tree then
      cli_with_guard env (py_int env.rawInput) false []
    else if py_startswith (py_lower (py_strip env.stashAnswerRaw)) "y" then
      cli_with_guard env (py_int env.rawInput) true [GitCmd.stashPush true]
    else
      cli_base_run env (MoveResult.fatal GMError.workingTreeNotClean)

/-!
Shared structural lemmas about the two engines.
-/

/-- Commands the replay loop can add to the trace. -/
def is_replay_cmd : GitCmd → Bool
  | GitCmd.cherryPickNoCommit _ => true
  | GitCmd.commitWithDates _ => true
  | GitCmd.cherryPickAbort => true
  | GitCmd.cherryPickSkip => true
  | GitCmd.checkoutOurs => true
  | GitCmd.checkoutTheirs => true
  | GitCmd.addAll => true
  | _ => false

/-- Commands the staging-rewrite loop can add to the trace. -/
def is_rewrite_cmd : GitCmd → Bool
  | GitCmd.cherryPickPlain _ => true
  | GitCmd.cherryPickSkip => true
  | GitCmd.cherryPickAbort => true
  | _ => false


/-- Moving a repeated head element across an append. -/
theorem replicate_append_cons {α : Type} (n : Nat) (a : α) (m : List α) :
    List.replicate n a ++ (a :: m) = List.replicate (n + 1) a ++ m := by
  rw [List.replicate_succ']
  simp

/-- Structure of a GUI replay-loop run from any starting state: the
processed list only grows, by some suffix `p`; the mainline gains exactly
one freshly created commit per element of `p`; the trace grows by replay
commands only; and no commit whose successful pick left an empty index
ever enters `p`. -/
theorem gui_replay_loop_spec (env : GuiEnv) (sm : Bool) :
    ∀ (cs : List CommitId) (s : LoopSt),
      ∃ p t,
        (gui_replay_loop env sm cs s).1.processed = s.processed ++ p ∧
        (gui_replay_loop env sm cs s).1.mainline
          = List.replicate p.length (gui_new_commit env) ++ s.mainline ∧
        (gui_replay_loop env sm cs s).1.trace = s.trace ++ t ∧
        (∀ x ∈ t, is_replay_cmd x = true) ∧
        (∀ c ∈ p, env.pickOutcome c ≠ PickOutcome.picked true) := by
  intro cs
  induction cs with
  | nil =>
    intro s
    refine ⟨[], [], ?_, ?_, ?_, ?_, ?_⟩ <;> simp [gui_replay_loop]
  | cons c rest ih =>
    intro s
    by_cases hstep : (sm && !env.stepConfirm c) = true
    · refine ⟨[], [], ?_, ?_, ?_, ?_, ?_⟩ <;> simp [gui_replay_loop, hstep]
    · rw [Bool.not_eq_true] at hstep
      cases hpick : env.pickOutcome c with
      | picked ie =>
        cases ie with
        | true =>
          have hstepeq : gui_replay_loop env sm (c :: rest) s =
              gui_replay_loop env sm rest
                { s with trace := s.trace ++ [GitCmd.cherryPickNoCommit c] } := by
            simp [gui_replay_loop, hstep, hpick]
          obtain ⟨p, t, h1, h2, h3, h4, h5⟩ :=
            ih { s with trace := s.trace ++ [GitCmd.cherryPickNoCommit c] }
          refine ⟨p, GitCmd.cherryPickNoCommit c :: t, ?_, ?_, ?_, ?_, h5⟩
          · rw [hstepeq, h1]
          · rw [hstepeq, h2]
          · rw [hstepeq, h3]; simp
          · intro x hx
            rcases List.mem_cons.mp hx with hx | hx
            · subst hx; rfl
            · exact h4 x hx
        | false =>
          have hstepeq : gui_replay_loop env sm (c :: rest) s =
              gui_replay_loop env sm rest
                { processed := s.processed ++ [c]
                  mainline := gui_new_commit env :: s.mainline
                  trace := (s.trace ++ [GitCmd.cherryPickNoCommit c]) ++
                    [GitCmd.commitWithDates env.nowIsoValue] } := by
            simp [gui_replay_loop, hstep, hpick]
          obtain ⟨p, t, h1, h2, h3, h4, h5⟩ :=
            ih { processed := s.processed ++ [c]
                 mainline := gui_new_commit env :: s.mainline
                 trace := (s.trace ++ [GitCmd.cherryPickNoCommit c]) ++
                   [GitCmd.commitWithDates env.nowIsoValue] }
          refine ⟨c :: p,
            GitCmd.cherryPickNoCommit c :: GitCmd.commitWithDates env.nowIsoValue :: t,
            ?_, ?_, ?_, ?_, ?_⟩
          · rw [hstepeq, h1]; simp
          · rw [hstepeq, h2]; rw [replicate_append_cons]; simp
          · rw [hstepeq, h3]; simp
          · intro x hx
            simp only [List.mem_cons] at hx
            rcases hx with hx | hx | hx
            · subst hx; rfl
            · subst hx; rfl
            · exact h4 x hx
          · intro d hd
            rcases List.mem_cons.mp hd with hd | hd
            · subst hd; simp [hpick]
            · exact h5 d hd
      | conflictFail =>
        cases hres : choose_conflict_resolution (env.conflictAnswer c) with
        | error e =>
          refine ⟨[], [GitCmd.cherryPickNoCommit c, GitCmd.cherryPickAbort],
            ?_, ?_, ?_, ?_, ?_⟩ <;>
            simp [gui_replay_loop, hstep, hpick, hres, is_replay_cmd]
        | ok r =>
          cases r with
          | ours =>
            have hstepeq : gui_replay_loop env sm (c :: rest) s =
                gui_replay_loop env sm rest
                  { processed := s.processed ++ [c]
                    mainline := gui_new_commit env :: s.mainline
                    trace := (s.trace ++ [GitCmd.cherryPickNoCommit c]) ++
                      [GitCmd.checkoutOurs, GitCmd.addAll,
                        GitCmd.commitWithDates env.nowIsoValue] } := by
              simp [gui_replay_loop, hstep, hpick, hres]
            obtain ⟨p, t, h1, h2, h3, h4, h5⟩ :=
              ih { processed := s.processed ++ [c]
                   mainline := gui_new_commit env :: s.mainline
                   trace := (s.trace ++ [GitCmd.cherryPickNoCommit c]) ++
                     [GitCmd.checkoutOurs, GitCmd.addAll,
                       GitCmd.commitWithDates env.nowIsoValue] }
            refine ⟨c :: p,
              GitCmd.cherryPickNoCommit c :: GitCmd.checkoutOurs :: GitCmd.addAll ::
                GitCmd.commitWithDates env.nowIsoValue :: t, ?_, ?_, ?_, ?_, ?_⟩
            · rw [hstepeq, h1]; simp
            · rw [hstepeq, h2]; rw [replicate_append_cons]; simp
            · rw [hstepeq, h3]; simp
            · intro x hx
              simp only [List.mem_cons] at hx
              rcases hx with hx | hx | hx | hx | hx
              · subst hx; rfl
              · subst hx; rfl
              · subst hx; rfl
              · subst hx; rfl
              · exact h4 x hx
            · intro d hd
              rcases List.mem_cons.mp hd with hd | hd
              · subst hd; simp [hpick]
              · exact h5 d hd
          | theirs =>
            have hstepeq : gui_replay_loop env sm (c :: rest) s =
                gui_replay_loop env sm rest
                  { processed := s.processed ++ [c]
                    mainline := gui_new_commit env :: s.mainline
                    trace := (s.trace ++ [GitCmd.cherryPickNoCommit c]) ++
                      [GitCmd.checkoutTheirs, GitCmd.addAll,
                        GitCmd.commitWithDates env.nowIsoValue] } := by
              simp [gui_replay_loop, hstep, hpick, hres]
            obtain ⟨p, t, h1, h2, h3, h4, h5⟩ :=
              ih { processed := s.processed ++ [c]
                   mainline := gui_new_commit env :: s.mainline
                   trace := (s.trace ++ [GitCmd.cherryPickNoCommit c]) ++
                     [GitCmd.checkoutTheirs, GitCmd.addAll,
                       GitCmd.commitWithDates env.nowIsoValue] }
            refine ⟨c :: p,
              GitCmd.cherryPickNoCommit c :: GitCmd.checkoutTheirs :: GitCmd.addAll ::
                GitCmd.commitWithDates env.nowIsoValue :: t, ?_, ?_, ?_, ?_, ?_⟩
            · rw [hstepeq, h1]; simp
            · rw [hstepeq, h2]; rw [replicate_append_cons]; simp
            · rw [hstepeq, h3]; simp
            · intro x hx
              simp only [List.mem_cons] at hx
              rcases hx with hx | hx | hx | hx | hx
              · subst hx; rfl
              · subst hx; rfl
              · subst hx; rfl
              · subst hx; rfl
              · exact h4 x hx
            · intro d hd
              rcases List.mem_cons.mp hd with hd | hd
              · subst hd; simp [hpick]
              · exact h5 d hd
          | skip =>
            have hstepeq : gui_replay_loop env sm (c :: rest) s =
                gui_replay_loop env sm rest
                  { s with trace := (s.trace ++ [GitCmd.cherryPickNoCommit c]) ++
                      [GitCmd.cherryPickAbort] } := by
              simp [gui_replay_loop, hstep, hpick, hres]
            obtain ⟨p, t, h1, h2, h3, h4, h5⟩ :=
              ih { s with trace := (s.trace ++ [GitCmd.cherryPickNoCommit c]) ++
                    [GitCmd.cherryPickAbort] }
            refine ⟨p, GitCmd.cherryPickNoCommit c :: GitCmd.cherryPickAbort :: t,
              ?_, ?_, ?_, ?_, h5⟩
            · rw [hstepeq, h1]
            · rw [hstepeq, h2]
            · rw [hstepeq, h3]; simp
            · intro x hx
              simp only [List.mem_cons] at hx
              rcases hx with hx | hx | hx
              · subst hx; rfl
              · subst hx; rfl
              · exact h4 x hx
          | abortAll =>
            refine ⟨[], [GitCmd.cherryPickNoCommit c, GitCmd.cherryPickAbort],
              ?_, ?_, ?_, ?_, ?_⟩ <;>
              simp [gui_replay_loop, hstep, hpick, hres, is_replay_cmd]
      | emptyFail =>
        have hstepeq : gui_replay_loop env sm (c :: rest) s =
            gui_replay_loop env sm rest
              { s with trace := s.trace ++
                  [GitCmd.cherryPickNoCommit c, GitCmd.cherryPickSkip] } := by
          simp [gui_replay_loop, hstep, hpick]
        obtain ⟨p, t, h1, h2, h3, h4, h5⟩ :=
          ih { s with trace := s.trace ++ [GitCmd.cherryPickNoCommit c, GitCmd.cherryPickSkip] }
        refine ⟨p, GitCmd.cherryPickNoCommit c :: GitCmd.cherryPickSkip :: t,
          ?_, ?_, ?_, ?_, h5⟩
        · rw [hstepeq, h1]
        · rw [hstepeq, h2]
        · rw [hstepeq, h3]; simp
        · intro x hx
          simp only [List.mem_cons] at hx
          rcases hx with hx | hx | hx
          · subst hx; rfl
          · subst hx; rfl
          · exact h4 x hx
      | otherFail =>
        refine ⟨[], [GitCmd.cherryPickNoCommit c], ?_, ?_, ?_, ?_, ?_⟩ <;>
          simp [gui_replay_loop, hstep, hpick, is_replay_cmd]

/-- Structure of a CLI replay-loop run, analogous to
`gui_replay_loop_spec`. -/
theorem cli_replay_loop_spec (env : CliEnv) :
    ∀ (cs : List CommitId) (s : LoopSt),
      ∃ p t,
        (cli_replay_loop env cs s).1.processed = s.processed ++ p ∧
        (cli_replay_loop env cs s).1.mainline
          = List.replicate p.length (cli_new_commit env) ++ s.mainline ∧
        (cli_replay_loop env cs s).1.trace = s.trace ++ t ∧
        (∀ x ∈ t, is_replay_cmd x = true) ∧
        (∀ c ∈ p, env.pickOutcome c ≠ PickOutcome.picked true) := by
  intro cs
  induction cs with
  | nil =>
    intro s
    refine ⟨[], [], ?_, ?_, ?_, ?_, ?_⟩ <;> simp [cli_replay_loop]
  | cons c rest ih =>
    intro s
    cases hpick : env.pickOutcome c with
    | picked ie =>
      cases ie with
      | true =>
        refine ⟨[], [GitCmd.cherryPickNoCommit c], ?_, ?_, ?_, ?_, ?_⟩ <;>
          simp [cli_replay_loop, hpick, is_replay_cmd]
      | false =>
        have hstepeq : cli_replay_loop env (c :: rest) s =
            cli_replay_loop env rest
              { processed := s.processed ++ [c]
                mainline := cli_new_commit env :: s.mainline
                trace := (s.trace ++ [GitCmd.cherryPickNoCommit c]) ++
                  [GitCmd.commitWithDates env.nowIsoValue] } := by
          simp [cli_replay_loop, hpick]
        obtain ⟨p, t, h1, h2, h3, h4, h5⟩ :=
          ih { processed := s.processed ++ [c]
               mainline := cli_new_commit env :: s.mainline
               trace := (s.trace ++ [GitCmd.cherryPickNoCommit c]) ++
                 [GitCmd.commitWithDates env.nowIsoValue] }
        refine ⟨c :: p,
          GitCmd.cherryPickNoCommit c :: GitCmd.commitWithDates env.nowIsoValue :: t,
          ?_, ?_, ?_, ?_, ?_⟩
        · rw [hstepeq, h1]; simp
        · rw [hstepeq, h2]; rw [replicate_append_cons]; simp
        · rw [hstepeq, h3]; simp
        · intro x hx
          simp only [List.mem_cons] at hx
          rcases hx with hx | hx | hx
          · subst hx; rfl
          · subst hx; rfl
          · exact h4 x hx
        · intro d hd
          rcases List.mem_cons.mp hd with hd | hd
          · subst hd; simp [hpick]
          · exact h5 d hd
    | conflictFail =>
      refine ⟨[], [GitCmd.cherryPickNoCommit c, GitCmd.cherryPickAbort], ?_, ?_, ?_, ?_, ?_⟩ <;>
        simp [cli_replay_loop, hpick, is_replay_cmd]
    | emptyFail =>
      have hstepeq : cli_replay_loop env (c :: rest) s =
          cli_replay_loop env rest
            { s with trace := s.trace ++
                [GitCmd.cherryPickNoCommit c, GitCmd.cherryPickSkip] } := by
        simp [cli_replay_loop, hpick]
      obtain ⟨p, t, h1, h2, h3, h4, h5⟩ :=
        ih { s with trace := s.trace ++ [GitCmd.cherryPickNoCommit c, GitCmd.cherryPickSkip] }
      refine ⟨p, GitCmd.cherryPickNoCommit c :: GitCmd.cherryPickSkip :: t,
        ?_, ?_, ?_, ?_, h5⟩
      · rw [hstepeq, h1]
      · rw [hstepeq, h2]
      · rw [hstepeq, h3]; simp
      · intro x hx
        simp only [List.mem_cons] at hx
        rcases hx with hx | hx | hx
        · subst hx; rfl
        · subst hx; rfl
        · exact h4 x hx
    | otherFail =>
      refine ⟨[], [GitCmd.cherryPickNoCommit c], ?_, ?_, ?_, ?_, ?_⟩ <;>
        simp [cli_replay_loop, hpick, is_replay_cmd]

/-- Structure of the GUI staging-rewrite loop: the trace grows by rewrite
commands only (plain cherry-picks, sequencer skips, aborts — never a
dated commit, stash command, or push). -/
theorem gui_rewrite_loop_spec (env : GuiEnv) :
    ∀ (cs : List CommitId) (tr : List GitCmd),
      ∃ t, (gui_rewrite_loop env cs tr).1 = tr ++ t ∧
        ∀ x ∈ t, is_rewrite_cmd x = true := by
  intro cs
  induction cs with
  | nil => intro tr; exact ⟨[], by simp [gui_rewrite_loop], by simp⟩
  | cons c rest ih =>
    intro tr
    cases hrec : env.reconOutcome c with
    | picked =>
      obtain ⟨t, h1, h2⟩ := ih (tr ++ [GitCmd.cherryPickPlain c])
      refine ⟨GitCmd.cherryPickPlain c :: t, ?_, ?_⟩
      · rw [show gui_rewrite_loop env (c :: rest) tr =
            gui_rewrite_loop env rest (tr ++ [GitCmd.cherryPickPlain c]) by
            simp [gui_rewrite_loop, hrec]]
        rw [h1]; simp
      · intro x hx
        rcases List.mem_cons.mp hx with hx | hx
        · subst hx; rfl
        · exact h2 x hx
    | emptyFail =>
      obtain ⟨t, h1, h2⟩ := ih (tr ++ [GitCmd.cherryPickPlain c, GitCmd.cherryPickSkip])
      refine ⟨GitCmd.cherryPickPlain c :: GitCmd.cherryPickSkip :: t, ?_, ?_⟩
      · rw [show gui_rewrite_loop env (c :: rest) tr =
            gui_rewrite_loop env rest
              (tr ++ [GitCmd.cherryPickPlain c, GitCmd.cherryPickSkip]) by
            simp [gui_rewrite_loop, hrec]]
        rw [h1]; simp
      · intro x hx
        simp only [List.mem_cons] at hx
        rcases hx with hx | hx | hx
        · subst hx; rfl
        · subst hx; rfl
        · exact h2 x hx
    | conflictFail =>
      refine ⟨[GitCmd.cherryPickPlain c, GitCmd.cherryPickAbort], ?_, ?_⟩ <;>
        simp [gui_rewrite_loop, hrec, is_rewrite_cmd]

/-- Structure of the CLI staging-rewrite loop: rewrite commands only. -/
theorem cli_rewrite_loop_spec (env : CliEnv) :
    ∀ (cs : List CommitId) (tr : List GitCmd),
      ∃ t, (cli_rewrite_loop env cs tr).1 = tr ++ t ∧
        ∀ x ∈ t, is_rewrite_cmd x = true := by
  intro cs
  induction cs with
  | nil => intro tr; exact ⟨[], by simp [cli_rewrite_loop], by simp⟩
  | cons c rest ih =>
    intro tr
    cases hrec : env.reconOutcome c with
    | picked =>
      obtain ⟨t, h1, h2⟩ := ih (tr ++ [GitCmd.cherryPickPlain c])
      refine ⟨GitCmd.cherryPickPlain c :: t, ?_, ?_⟩
      · rw [show cli_rewrite_loop env (c :: rest) tr =
            cli_rewrite_loop env rest (tr ++ [GitCmd.cherryPickPlain c]) by
            simp [cli_rewrite_loop, hrec]]
        rw [h1]; simp
      · intro x hx
        rcases List.mem_cons.mp hx with hx | hx
        · subst hx; rfl
        · exact h2 x hx
    | emptyFail =>
      refine ⟨[GitCmd.cherryPickPlain c, GitCmd.cherryPickAbort], ?_, ?_⟩ <;>
        simp [cli_rewrite_loop, hrec, is_rewrite_cmd]
    | conflictFail =>
      refine ⟨[GitCmd.cherryPickPlain c, GitCmd.cherryPickAbort], ?_, ?_⟩ <;>
        simp [cli_rewrite_loop, hrec, is_rewrite_cmd]

/-- Commands the working-tree guard can add to the trace. -/
def is_guard_cmd : GitCmd → Bool
  | GitCmd.mergeAbort => true
  | GitCmd.cherryPickAbort => true
  | GitCmd.rebaseAbort => true
  | GitCmd.stashPush _ => true
  | _ => false

/-- Every command issued by `_abort_in_progress_ops` is a guard command. -/
theorem gui_abort_in_progress_guard (env : GuiEnv) :
    ∀ x ∈ gui_abort_in_progress env, is_guard_cmd x = true := by
  intro x hx
  unfold gui_abort_in_progress at hx
  simp only [List.mem_append] at hx
  rcases hx with (hx | hx) | hx
  · split at hx
    · simp at hx; subst hx; rfl
    · simp at hx
  · split at hx
    · simp at hx; subst hx; rfl
    · simp at hx
  · split at hx
    · simp at hx; subst hx; rfl
    · simp at hx

/-- What the working-tree guard can return: its trace holds guard commands
only; a clean tree means no stash and no commands; a dirty tree (with the
prompt accepted) means a stash including untracked files was pushed. -/
theorem gui_tree_guard_spec (env : GuiEnv) (stashed : Bool) (tr0 : List GitCmd)
    (h : gui_tree_guard env = some (stashed, tr0)) :
    (∀ x ∈ tr0, is_guard_cmd x = true) ∧
    (stashed = false → tr0 = []) ∧
    (is_clean env.tree = true → stashed = false ∧ tr0 = []) ∧
    (is_clean env.tree = false → stashed = true ∧ GitCmd.stashPush true ∈ tr0) := by
  unfold gui_tree_guard at h
  by_cases hc : is_clean env.tree = true
  · rw [if_pos hc] at h
    simp only [Option.some.injEq, Prod.mk.injEq] at h
    obtain ⟨hs, ht⟩ := h
    subst hs; subst ht
    exact ⟨by simp, by simp, fun _ => ⟨rfl, rfl⟩, fun hcc => absurd hc (by simp [hcc])⟩
  · rw [if_neg hc] at h
    by_cases ha : (!env.stashAnswer) = true
    · rw [if_pos ha] at h
      exact absurd h (by simp)
    · rw [if_neg ha] at h
      simp only [Option.some.injEq, Prod.mk.injEq] at h
      obtain ⟨hs, ht⟩ := h
      subst hs; subst ht
      refine ⟨?_, by simp, fun hcc => absurd hcc hc, fun _ => ⟨rfl, by simp⟩⟩
      intro x hx
      rcases List.mem_append.mp hx with hx | hx
      · exact gui_abort_in_progress_guard env x hx
      · simp at hx; subst hx; rfl

/-- Trace structure of the final stash restore: it appends nothing when no
stash exists, and exactly a checkout plus a stash pop otherwise; the
result is always success. -/
theorem gui_finish_stash_trace (env : GuiEnv) (stashed : Bool) (tr : List GitCmd)
    (s : LoopSt) (w : List MCommit) :
    ∃ t, (gui_finish_stash env stashed tr s w).trace = tr ++ t ∧
      (∀ b, GitCmd.stashPush b ∉ t) ∧
      (GitCmd.stashPop ∈ t ↔ stashed = true) ∧
      (gui_finish_stash env stashed tr s w).result = MoveResult.success := by
  cases stashed
  · exact ⟨[], by simp [gui_finish_stash], by simp, by simp, by simp [gui_finish_stash]⟩
  · refine ⟨[GitCmd.checkout env.currentBranch, GitCmd.stashPop],
      by simp [gui_finish_stash], ?_, by simp, by simp [gui_finish_stash]⟩
    intro b
    simp

/-- Trace structure of the GUI post-push phase: everything it appends comes
after the push command, never includes another stash push, and contains the
stash pop exactly when a stash exists and the phase ends in success; the
push always ran. -/
theorem gui_reconcile_trace (env : GuiEnv) (stashed : Bool) (s : LoopSt)
    (w : List MCommit) :
    ∃ t, (gui_reconcile env stashed s w).trace = s.trace ++ t ∧
      (∀ b, GitCmd.stashPush b ∉ t) ∧
      (GitCmd.stashPop ∈ t ↔ stashed = true ∧
        (gui_reconcile env stashed s w).result = MoveResult.success) ∧
      (gui_reconcile env stashed s w).pushRan = true ∧
      (gui_reconcile env stashed s w).result ≠ MoveResult.noOp := by
  unfold gui_reconcile
  by_cases hrem : env.remainingAfterPush = []
  · rw [if_pos hrem]
    obtain ⟨t, h1, h2, h3, h4⟩ := gui_finish_stash_trace env stashed
      (s.trace ++ [GitCmd.push env.baseBranch] ++
        (if env.backupOk then [GitCmd.branchCreate env.backupName "local_commit"] else []) ++
        [GitCmd.checkout "local_commit", GitCmd.resetHard env.baseBranch]) s w
    refine ⟨[GitCmd.push env.baseBranch] ++
      (if env.backupOk then [GitCmd.branchCreate env.backupName "local_commit"] else []) ++
      [GitCmd.checkout "local_commit", GitCmd.resetHard env.baseBranch] ++ t, ?_, ?_, ?_, ?_, ?_⟩
    · rw [h1]; simp
    · intro b hb
      simp only [List.mem_append, List.mem_cons, List.mem_singleton,
        List.not_mem_nil, or_false] at hb
      rcases hb with ((hb | hb) | hb | hb) | hb
      · simp at hb
      · split at hb <;> simp at hb
      · simp at hb
      · simp at hb
      · exact h2 b hb
    · rw [h4]
      constructor
      · intro hb
        refine ⟨?_, rfl⟩
        simp only [List.mem_append, List.mem_cons, List.mem_singleton,
          List.not_mem_nil, or_false] at hb
        rcases hb with ((hb | hb) | hb | hb) | hb
        · simp at hb
        · split at hb <;> simp at hb
        · simp at hb
        · simp at hb
        · exact h3.mp hb
      · rintro ⟨hs, -⟩
        simp only [List.mem_append]
        exact Or.inr (h3.mpr hs)
    · simp [gui_finish_stash]
    · simp [gui_finish_stash]
  · rw [if_neg hrem]
    obtain ⟨trw, hw1, hw2⟩ := gui_rewrite_loop_spec env env.remainingAfterPush
      (s.trace ++ [GitCmd.push env.baseBranch] ++
        (if env.backupOk then [GitCmd.branchCreate env.backupName "local_commit"] else []) ++
        [GitCmd.checkout "local_commit", GitCmd.resetHard env.baseBranch])
    cases hres : gui_rewrite_loop env env.remainingAfterPush
        (s.trace ++ [GitCmd.push env.baseBranch] ++
          (if env.backupOk then [GitCmd.branchCreate env.backupName "local_commit"] else []) ++
          [GitCmd.checkout "local_commit", GitCmd.resetHard env.baseBranch]) with
    | mk trw2 lerr =>
      rw [hres] at hw1
      dsimp only at hw1
      cases lerr with
      | some e =>
        dsimp only
        refine ⟨[GitCmd.push env.baseBranch] ++
          (if env.backupOk then [GitCmd.branchCreate env.backupName "local_commit"] else []) ++
          [GitCmd.checkout "local_commit", GitCmd.resetHard env.baseBranch] ++ trw,
          ?_, ?_, ?_, ?_, ?_⟩
        · rw [hw1]; simp
        · intro b hb
          simp only [List.mem_append, List.mem_cons, List.mem_singleton,
            List.not_mem_nil, or_false] at hb
          rcases hb with ((hb | hb) | hb | hb) | hb
          · simp at hb
          · split at hb <;> simp at hb
          · simp at hb
          · simp at hb
          · have := hw2 _ hb
            simp [is_rewrite_cmd] at this
        · constructor
          · intro hb
            exfalso
            simp only [List.mem_append, List.mem_cons, List.mem_singleton,
              List.not_mem_nil, or_false] at hb
            rcases hb with ((hb | hb) | hb | hb) | hb
            · simp at hb
            · split at hb <;> simp at hb
            · simp at hb
            · simp at hb
            · have := hw2 _ hb
              simp [is_rewrite_cmd] at this
          · rintro ⟨-, hr⟩
            simp at hr
        · rfl
        · simp
      | none =>
        dsimp only
        obtain ⟨t, h1, h2, h3, h4⟩ := gui_finish_stash_trace env stashed trw2 s w
        refine ⟨[GitCmd.push env.baseBranch] ++
          (if env.backupOk then [GitCmd.branchCreate env.backupName "local_commit"] else []) ++
          [GitCmd.checkout "local_commit", GitCmd.resetHard env.baseBranch] ++ trw ++ t,
          ?_, ?_, ?_, ?_, ?_⟩
        · rw [h1, hw1]; simp
        · intro b hb
          simp only [List.mem_append, List.mem_cons, List.mem_singleton,
            List.not_mem_nil, or_false] at hb
          rcases hb with (((hb | hb) | hb | hb) | hb) | hb
          · simp at hb
          · split at hb <;> simp at hb
          · simp at hb
          · simp at hb
          · have := hw2 _ hb
            simp [is_rewrite_cmd] at this
          · exact h2 b hb
        · rw [h4]
          constructor
          · intro hb
            refine ⟨?_, rfl⟩
            simp only [List.mem_append, List.mem_cons, List.mem_singleton,
              List.not_mem_nil, or_false] at hb
            rcases hb with (((hb | hb) | hb | hb) | hb) | hb
            · simp at hb
            · split at hb <;> simp at hb
            · simp at hb
            · simp at hb
            · have := hw2 _ hb
              simp [is_rewrite_cmd] at this
            · exact h3.mp hb
          · rintro ⟨hs, -⟩
            simp only [List.mem_append]
            exact Or.inr (h3.mpr hs)
        · simp [gui_finish_stash]
        · simp [gui_finish_stash]

/-- Trace structure of everything after the GUI replay loop: no further
stash push is ever issued, and the stash pop appears exactly when a stash
exists and the run ends in success or in the no-op exit — never on a
fatal error. -/
theorem gui_after_loop_trace (env : GuiEnv) (stashed : Bool) (s : LoopSt)
    (lerr : Option GMError) :
    ∃ t, (gui_after_loop env stashed s lerr).trace = s.trace ++ t ∧
      (∀ b, GitCmd.stashPush b ∉ t) ∧
      (GitCmd.stashPop ∈ t ↔ stashed = true ∧
        ((gui_after_loop env stashed s lerr).result = MoveResult.success ∨
         (gui_after_loop env stashed s lerr).result = MoveResult.noOp)) := by
  cases lerr with
  | some e =>
    refine ⟨[], by simp [gui_after_loop], by simp, ?_⟩
    simp [gui_after_loop]
  | none =>
    unfold gui_after_loop
    by_cases hp : s.processed.length = 0
    · rw [if_pos hp]
      cases stashed
      · refine ⟨[GitCmd.checkout env.currentBranch], by simp, by simp, ?_⟩
        simp
      · refine ⟨[GitCmd.checkout env.currentBranch, GitCmd.stashPop], by simp, by simp, ?_⟩
        simp
    · rw [if_neg hp]
      cases hval : pre_push_validation env.remoteHeadLine env.baseBranch
          (s.mainline.take s.processed.length)
          (py_take env.nowIsoAtValidation 10) env.cfgEmail env.cfgName with
      | some e =>
        refine ⟨[], by simp, by simp, ?_⟩
        simp
      | none =>
        by_cases hpush : (!env.pushOk) = true
        · rw [if_pos hpush]
          refine ⟨[GitCmd.push env.baseBranch], by simp, by simp, ?_⟩
          simp
        · rw [if_neg hpush]
          dsimp only
          obtain ⟨t, h1, h2, h3, h4, h5⟩ :=
            gui_reconcile_trace env stashed s (s.mainline.take s.processed.length)
          refine ⟨t, h1, h2, ?_⟩
          rw [h3]
          constructor
          · rintro ⟨hs, hr⟩
            exact ⟨hs, Or.inl hr⟩
          · rintro ⟨hs, hr | hr⟩
            · exact ⟨hs, hr⟩
            · exact absurd hr h5

/-- Trace structure of the CLI final stash restore; the result is always
success. -/
theorem cli_finish_stash_trace (env : CliEnv) (stashed : Bool) (tr : List GitCmd)
    (s : LoopSt) (w : List MCommit) :
    ∃ t, (cli_finish_stash env stashed tr s w).trace = tr ++ t ∧
      (∀ b, GitCmd.stashPush b ∉ t) ∧
      (GitCmd.stashPop ∈ t ↔ stashed = true) ∧
      (cli_finish_stash env stashed tr s w).result = MoveResult.success := by
  cases stashed
  · exact ⟨[], by simp [cli_finish_stash], by simp, by simp, by simp [cli_finish_stash]⟩
  · refine ⟨[GitCmd.checkout env.currentBranch, GitCmd.stashPop],
      by simp [cli_finish_stash], ?_, by simp, by simp [cli_finish_stash]⟩
    intro b
    simp

/-- Trace structure of the CLI post-push phase, analogous to
`gui_reconcile_trace`. -/
theorem cli_reconcile_trace (env : CliEnv) (stashed : Bool) (s : LoopSt)
    (w : List MCommit) :
    ∃ t, (cli_reconcile env stashed s w).trace = s.trace ++ t ∧
      (∀ b, GitCmd.stashPush b ∉ t) ∧
      (GitCmd.stashPop ∈ t ↔ stashed = true ∧
        (cli_reconcile env stashed s w).result = MoveResult.success) ∧
      (cli_reconcile env stashed s w).pushRan = true ∧
      (cli_reconcile env stashed s w).result ≠ MoveResult.noOp := by
  unfold cli_reconcile
  by_cases hrem : env.remainingAfterPush = []
  · rw [if_pos hrem]
    obtain ⟨t, h1, h2, h3, h4⟩ := cli_finish_stash_trace env stashed
      (s.trace ++ [GitCmd.push env.baseBranch] ++
        [GitCmd.checkout "local_commit", GitCmd.resetHard env.baseBranch]) s w
    refine ⟨[GitCmd.push env.baseBranch] ++
      [GitCmd.checkout "local_commit", GitCmd.resetHard env.baseBranch] ++ t,
      ?_, ?_, ?_, ?_, ?_⟩
    · rw [h1]; simp
    · intro b hb
      simp only [List.mem_append, List.mem_cons, List.mem_singleton,
        List.not_mem_nil, or_false] at hb
      rcases hb with (hb | hb | hb) | hb
      · simp at hb
      · simp at hb
      · simp at hb
      · exact h2 b hb
    · rw [h4]
      constructor
      · intro hb
        refine ⟨?_, rfl⟩
        simp only [List.mem_append, List.mem_cons, List.mem_singleton,
          List.not_mem_nil, or_false] at hb
        rcases hb with (hb | hb | hb) | hb
        · simp at hb
        · simp at hb
        · simp at hb
        · exact h3.mp hb
      · rintro ⟨hs, -⟩
        simp only [List.mem_append]
        exact Or.inr (h3.mpr hs)
    · simp [cli_finish_stash]
    · simp [cli_finish_stash]
  · rw [if_neg hrem]
    obtain ⟨trw, hw1, hw2⟩ := cli_rewrite_loop_spec env env.remainingAfterPush
      (s.trace ++ [GitCmd.push env.baseBranch] ++
        [GitCmd.checkout "local_commit", GitCmd.resetHard env.baseBranch])
    cases hres : cli_rewrite_loop env env.remainingAfterPush
        (s.trace ++ [GitCmd.push env.baseBranch] ++
          [GitCmd.checkout "local_commit", GitCmd.resetHard env.baseBranch]) with
    | mk trw2 lerr =>
      rw [hres] at hw1
      dsimp only at hw1
      cases lerr with
      | some e =>
        dsimp only
        refine ⟨[GitCmd.push env.baseBranch] ++
          [GitCmd.checkout "local_commit", GitCmd.resetHard env.baseBranch] ++ trw,
          ?_, ?_, ?_, ?_, ?_⟩
        · rw [hw1]; simp
        · intro b hb
          simp only [List.mem_append, List.mem_cons, List.mem_singleton,
            List.not_mem_nil, or_false] at hb
          rcases hb with (hb | hb | hb) | hb
          · simp at hb
          · simp at hb
          · simp at hb
          · have := hw2 _ hb
            simp [is_rewrite_cmd] at this
        · constructor
          · intro hb
            exfalso
            simp only [List.mem_append, List.mem_cons, List.mem_singleton,
              List.not_mem_nil, or_false] at hb
            rcases hb with (hb | hb | hb) | hb
            · simp at hb
            · simp at hb
            · simp at hb
            · have := hw2 _ hb
              simp [is_rewrite_cmd] at this
          · rintro ⟨-, hr⟩
            simp at hr
        · rfl
        · simp
      | none =>
        dsimp only
        obtain ⟨t, h1, h2, h3, h4⟩ := cli_finish_stash_trace env stashed trw2 s w
        refine ⟨[GitCmd.push env.baseBranch] ++
          [GitCmd.checkout "local_commit", GitCmd.resetHard env.baseBranch] ++ trw ++ t,
          ?_, ?_, ?_, ?_, ?_⟩
        · rw [h1, hw1]; simp
        · intro b hb
          simp only [List.mem_append, List.mem_cons, List.mem_singleton,
            List.not_mem_nil, or_false] at hb
          rcases hb with ((hb | hb | hb) | hb) | hb
          · simp at hb
          · simp at hb
          · simp at hb
          · have := hw2 _ hb
            simp [is_rewrite_cmd] at this
          · exact h2 b hb
        · rw [h4]
          constructor
          · intro hb
            refine ⟨?_, rfl⟩
            simp only [List.mem_append, List.mem_cons, List.mem_singleton,
              List.not_mem_nil, or_false] at hb
            rcases hb with ((hb | hb | hb) | hb) | hb
            · simp at hb
            · simp at hb
            · simp at hb
            · have := hw2 _ hb
              simp [is_rewrite_cmd] at this
            · exact h3.mp hb
          · rintro ⟨hs, -⟩
            simp only [List.mem_append]
            exact Or.inr (h3.mpr hs)
        · simp [cli_finish_stash]
        · simp [cli_finish_stash]

/-- Trace structure of everything after the CLI replay loop: no further
stash push, and the stash pop appears exactly when a stash exists and the
run ends in success (the CLI has no no-op exit). -/
theorem cli_after_loop_trace (env : CliEnv) (num : Nat) (stashed : Bool) (s : LoopSt)
    (lerr : Option GMError) :
    ∃ t, (cli_after_loop env num stashed s lerr).trace = s.trace ++ t ∧
      (∀ b, GitCmd.stashPush b ∉ t) ∧
      (GitCmd.stashPop ∈ t ↔ stashed = true ∧
        (cli_after_loop env num stashed s lerr).result = MoveResult.success) := by
  cases lerr with
  | some e =>
    refine ⟨[], by simp [cli_after_loop], by simp, ?_⟩
    simp [cli_after_loop]
  | none =>
    unfold cli_after_loop
    cases hval : pre_push_validation env.remoteHeadLine env.baseBranch
        (s.mainline.take num) env.localToday env.cfgEmail env.cfgName with
    | some e =>
      refine ⟨[], by simp, by simp, ?_⟩
      simp
    | none =>
      by_cases hpush : (!env.pushOk) = true
      · rw [if_pos hpush]
        refine ⟨[GitCmd.push env.baseBranch], by simp, by simp, ?_⟩
        simp
      · rw [if_neg hpush]
        dsimp only
        obtain ⟨t, h1, h2, h3, h4, h5⟩ := cli_reconcile_trace env stashed s (s.mainline.take num)
        exact ⟨t, h1, h2, h3⟩

/-- The post-push phase never changes whether a stash exists. -/
theorem gui_reconcile_stashed (env : GuiEnv) (stashed : Bool) (s : LoopSt)
    (w : List MCommit) : (gui_reconcile env stashed s w).stashed = stashed := by
  unfold gui_reconcile
  split
  · rfl
  · split <;> rfl

/-- The whole post-loop phase never changes whether a stash exists. -/
theorem gui_after_loop_stashed (env : GuiEnv) (stashed : Bool) (s : LoopSt)
    (lerr : Option GMError) : (gui_after_loop env stashed s lerr).stashed = stashed := by
  unfold gui_after_loop
  split
  · rfl
  · split
    · rfl
    · split
      · rfl
      · split
        · rfl
        · exact gui_reconcile_stashed env stashed s _

/-- Combined trace/stash facts for the loop-and-after tail of the GUI
move: the trace grows beyond the guard commands by commands that never
include a stash push, the stash flag is passed through, and the stash pop
appears in the additions exactly on a success or no-op ending. -/
theorem gui_with_guard_spec (env : GuiEnv) (num : Nat) (sm stashed : Bool)
    (tr0 : List GitCmd) :
    ∃ t, (gui_with_guard env num sm stashed tr0).trace = tr0 ++ t ∧
      (∀ b, GitCmd.stashPush b ∉ t) ∧
      (gui_with_guard env num sm stashed tr0).stashed = stashed ∧
      (GitCmd.stashPop ∈ t ↔ stashed = true ∧
        ((gui_with_guard env num sm stashed tr0).result = MoveResult.success ∨
         (gui_with_guard env num sm stashed tr0).result = MoveResult.noOp)) := by
  unfold gui_with_guard
  by_cases hc : env.commitList.take num = []
  · rw [if_pos hc]
    refine ⟨[], by simp, by simp, rfl, ?_⟩
    simp [gui_base_run]
  · rw [if_neg hc]
    cases hloop : gui_replay_loop env sm (env.commitList.take num)
        { processed := [], mainline := env.initialMainline
          trace := tr0 ++ [GitCmd.checkout env.baseBranch] } with
    | mk s1 lerr =>
      dsimp only
      obtain ⟨p, tl, hp1, hp2, hp3, hp4, hp5⟩ := gui_replay_loop_spec env sm
        (env.commitList.take num)
        { processed := [], mainline := env.initialMainline
          trace := tr0 ++ [GitCmd.checkout env.baseBranch] }
      rw [hloop] at hp3
      dsimp only at hp3
      obtain ⟨t2, ha1, ha2, ha3⟩ := gui_after_loop_trace env stashed s1 lerr
      refine ⟨[GitCmd.checkout env.baseBranch] ++ tl ++ t2, ?_, ?_,
        gui_after_loop_stashed env stashed s1 lerr, ?_⟩
      · rw [ha1, hp3]; simp
      · intro b hb
        simp only [List.mem_append, List.mem_cons, List.not_mem_nil, or_false] at hb
        rcases hb with (hb | hb) | hb
        · simp at hb
        · have := hp4 _ hb
          simp [is_replay_cmd] at this
        · exact ha2 b hb
      · constructor
        · intro hb
          simp only [List.mem_append, List.mem_cons, List.not_mem_nil, or_false] at hb
          rcases hb with (hb | hb) | hb
          · simp at hb
          · have := hp4 _ hb
            simp [is_replay_cmd] at this
          · exact ha3.mp hb
        · intro hr
          simp only [List.mem_append]
          exact Or.inr (ha3.mpr hr)

/-- The CLI post-push phase never changes whether a stash exists. -/
theorem cli_reconcile_stashed (env : CliEnv) (stashed : Bool) (s : LoopSt)
    (w : List MCommit) : (cli_reconcile env stashed s w).stashed = stashed := by
  unfold cli_reconcile
  split
  · rfl
  · split <;> rfl

/-- The whole CLI post-loop phase never changes whether a stash exists. -/
theorem cli_after_loop_stashed (env : CliEnv) (num : Nat) (stashed : Bool) (s : LoopSt)
    (lerr : Option GMError) : (cli_after_loop env num stashed s lerr).stashed = stashed := by
  unfold cli_after_loop
  split
  · rfl
  · split
    · rfl
    · split
      · rfl
      · exact cli_reconcile_stashed env stashed s _

/-- Combined trace/stash facts for the loop-and-after tail of the CLI
move. -/
theorem cli_with_guard_spec (env : CliEnv) (num : Nat) (stashed : Bool)
    (tr0 : List GitCmd) :
    ∃ t, (cli_with_guard env num stashed tr0).trace = tr0 ++ t ∧
      (∀ b, GitCmd.stashPush b ∉ t) ∧
      (cli_with_guard env num stashed tr0).stashed = stashed ∧
      (GitCmd.stashPop ∈ t ↔ stashed = true ∧
        (cli_with_guard env num stashed tr0).result = MoveResult.success) := by
  unfold cli_with_guard
  by_cases hc : env.commitList.take num = []
  · rw [if_pos hc]
    refine ⟨[], by simp, by simp, rfl, ?_⟩
    simp [cli_base_run]
  · rw [if_neg hc]
    cases hloop : cli_replay_loop env (env.commitList.take num)
        { processed := [], mainline := env.initialMainline
          trace := tr0 ++ [GitCmd.checkout env.baseBranch] } with
    | mk s1 lerr =>
      dsimp only
      obtain ⟨p, tl, hp1, hp2, hp3, hp4, hp5⟩ := cli_replay_loop_spec env
        (env.commitList.take num)
        { processed := [], mainline := env.initialMainline
          trace := tr0 ++ [GitCmd.checkout env.baseBranch] }
      rw [hloop] at hp3
      dsimp only at hp3
      obtain ⟨t2, ha1, ha2, ha3⟩ := cli_after_loop_trace env num stashed s1 lerr
      refine ⟨[GitCmd.checkout env.baseBranch] ++ tl ++ t2, ?_, ?_,
        cli_after_loop_stashed env num stashed s1 lerr, ?_⟩
      · rw [ha1, hp3]; simp
      · intro b hb
        simp only [List.mem_append, List.mem_cons, List.not_mem_nil, or_false] at hb
        rcases hb with (hb | hb) | hb
        · simp at hb
        · have := hp4 _ hb
          simp [is_replay_cmd] at this
        · exact ha2 b hb
      · constructor
        · intro hb
          simp only [List.mem_append, List.mem_cons, List.not_mem_nil, or_false] at hb
          rcases hb with (hb | hb) | hb
          · simp at hb
          · have := hp4 _ hb
            simp [is_replay_cmd] at this
          · exact ha3.mp hb
        · intro hr
          simp only [List.mem_append]
          exact Or.inr (ha3.mpr hr)

/-- Every GUI move is either an early exit (before any branch switch) or
the guarded tail with the guard's stash decision. -/
theorem gui_action_move_shape (env : GuiEnv) :
    (∃ r, gui_action_move env = gui_base_run env r) ∨
    (∃ num stashed tr0, env.dialogResult = some num ∧
      gui_tree_guard env = some (stashed, tr0) ∧
      gui_action_move env =
        gui_with_guard env num (if num > 1 then env.stepAnswer else false) stashed tr0) := by
  unfold gui_action_move
  split
  · exact Or.inl ⟨_, rfl⟩
  · split
    · exact Or.inl ⟨_, rfl⟩
    · split
      · exact Or.inl ⟨_, rfl⟩
      · split
        · exact Or.inl ⟨_, rfl⟩
        · rename_i num hdialog
          split
          · exact Or.inl ⟨_, rfl⟩
          · rename_i stashed tr0 hguard
            exact Or.inr ⟨num, stashed, tr0, hdialog, hguard, rfl⟩

/-- Every CLI move is either an early exit (before any branch switch) or
one of the two guarded tails. -/
theorem cli_move_commits_shape (env : CliEnv) :
    (∃ r, cli_move_commits env = cli_base_run env r) ∨
    (is_clean env.tree = true ∧
      cli_move_commits env = cli_with_guard env (py_int env.rawInput) false []) ∨
    (is_clean env.tree = false ∧
      cli_move_commits env =
        cli_with_guard env (py_int env.rawInput) true [GitCmd.stashPush true]) := by
  unfold cli_move_commits
  split
  · exact Or.inl ⟨_, rfl⟩
  · split
    · exact Or.inl ⟨_, rfl⟩
    · split
      · exact Or.inl ⟨_, rfl⟩
      · split
        · exact Or.inl ⟨_, rfl⟩
        · split
          · exact Or.inl ⟨_, rfl⟩
          · split
            · rename_i hclean
              exact Or.inr (Or.inl ⟨hclean, rfl⟩)
            · split
              · rename_i hclean _
                exact Or.inr (Or.inr ⟨by simpa using hclean, rfl⟩)
              · exact Or.inl ⟨_, rfl⟩

/-!
Concrete environments used by witnesses and counterexamples.
-/

/-- A small, fully concrete GUI environment: one pending commit, clean
tree, every git interaction succeeds, validation passes. -/
def guiEnvA : GuiEnv :=
  { cfgName := "a", cfgEmail := "e", localCommitOk := true, baseBranch := "main"
    currentBranch := "local_commit", pending := 1, dialogResult := some 1
    stepAnswer := false, tree := ⟨false, false, false⟩, stashAnswer := false
    mergeHeadExists := false, cherryPickHeadExists := false, rebaseMergeExists := false
    commitList := ["c1"], stepConfirm := fun _ => true
    pickOutcome := fun _ => PickOutcome.picked false
    conflictAnswer := fun _ => none
    nowIsoValue := "2026-10-12T10:00:00", nowIsoAtValidation := "2026-10-12T10:00:01"
    remoteHeadLine := some "main", initialMainline := []
    pushOk := true, backupOk := true, backupName := "backup"
    remainingAfterPush := ["c1"], reconOutcome := fun _ => ReconOutcome.emptyFail
    popOk := true }

/-- GUI environment with a dirty tree and an accepted stash prompt; the
run otherwise succeeds. -/
def guiEnvDirtySuccess : GuiEnv :=
  { guiEnvA with tree := ⟨true, false, false⟩, stashAnswer := true }

/-- GUI environment with a dirty tree, an accepted stash prompt, and a
conflicting cherry-pick that the user answers "3" (abort). -/
def guiEnvConflictAbort : GuiEnv :=
  { guiEnvA with
    tree := ⟨true, false, false⟩
    stashAnswer := true
    pickOutcome := fun _ => PickOutcome.conflictFail
    conflictAnswer := fun _ => some "3" }

/-- C2: claimed — for every move in which a stash was created, the stash is
popped on EVERY exit path (success, no-op, abort, error).  The code pops
only on the success and no-op paths; this theorem proves the amended form:
for both engines, given that a stash was created, the stash pop appears in
the command trace exactly when the run ends in success or (GUI only) in the
empty-processed no-op — on abort/error exits the stash is left unpopped. -/
theorem c2_stash_pop_policy :
    (∀ env : GuiEnv, (gui_action_move env).stashed = true →
      (GitCmd.stashPop ∈ (gui_action_move env).trace ↔
        ((gui_action_move env).result = MoveResult.success ∨
         (gui_action_move env).result = MoveResult.noOp))) ∧
    (∀ env : CliEnv, (cli_move_commits env).stashed = true →
      (GitCmd.stashPop ∈ (cli_move_commits env).trace ↔
        (cli_move_commits env).result = MoveResult.success)) := by
  constructor
  · intro env h
    rcases gui_action_move_shape env with ⟨r, hr⟩ | ⟨num, stashed0, tr0, hd, hg, hr⟩
    · rw [hr] at h
      simp [gui_base_run] at h
    · obtain ⟨hg1, hg2, hg3, hg4⟩ := gui_tree_guard_spec env stashed0 tr0 hg
      obtain ⟨t, hw1, hw2, hw3, hw4⟩ := gui_with_guard_spec env num
        (if num > 1 then env.stepAnswer else false) stashed0 tr0
      rw [hr] at h ⊢
      rw [hw3] at h
      rw [hw1]
      have hpop0 : GitCmd.stashPop ∉ tr0 := by
        intro hx
        have := hg1 _ hx
        simp [is_guard_cmd] at this
      rw [List.mem_append]
      constructor
      · rintro (hx | hx)
        · exact absurd hx hpop0
        · exact (hw4.mp hx).2
      · intro hx
        exact Or.inr (hw4.mpr ⟨h, hx⟩)
  · intro env h
    rcases cli_move_commits_shape env with ⟨r, hr⟩ | ⟨-, hr⟩ | ⟨-, hr⟩
    · rw [hr] at h
      simp [cli_base_run] at h
    · obtain ⟨t, hw1, hw2, hw3, hw4⟩ := cli_with_guard_spec env (py_int env.rawInput) false []
      rw [hr] at h
      rw [hw3] at h
      exact absurd h (by simp)
    · obtain ⟨t, hw1, hw2, hw3, hw4⟩ := cli_with_guard_spec env (py_int env.rawInput) true
        [GitCmd.stashPush true]
      rw [hr] at h ⊢
      rw [hw1, List.mem_append]
      constructor
      · rintro (hx | hx)
        · simp at hx
        · exact (hw4.mp hx).2
      · intro hx
        exact Or.inr (hw4.mpr ⟨rfl, hx⟩)

/-- C2 counterexample: a GUI move that stashed the working tree and then
aborted on a conflict ends with the stash still unpopped — the claimed
"popped on all exit paths" is false on the abort path. -/
theorem c2_counterexample :
    (gui_action_move guiEnvConflictAbort).stashed = true ∧
    (gui_action_move guiEnvConflictAbort).result =
      MoveResult.fatal GMError.cherryPickAbortedManual ∧
    GitCmd.stashPop ∉ (gui_action_move guiEnvConflictAbort).trace := by
  decide

/-- C2 witness: on a dirty-tree run that succeeds, the amended policy
yields the stash pop in the trace. -/
theorem c2_stash_pop_policy_witness :
    GitCmd.stashPop ∈ (gui_action_move guiEnvDirtySuccess).trace :=
  (c2_stash_pop_policy.1 guiEnvDirtySuccess (by decide)).mpr (Or.inl (by decide))

/-- A small, fully concrete CLI environment: one pending commit, clean
tree, every git interaction succeeds, validation passes. -/
def cliEnvA : CliEnv :=
  { cfgName := "a", cfgEmail := "e", localCommitOk := true, baseExists := true
    baseBranch := "main", currentBranch := "local_commit", pending := 1
    rawInput := "1", tree := ⟨false, false, false⟩, stashAnswerRaw := ""
    commitList := ["c1"]
    pickOutcome := fun _ => PickOutcome.picked false
    nowIsoValue := "2026-10-12T10:00:00+0000", localToday := "2026-10-12"
    remoteHeadLine := some "main", initialMainline := []
    pushOk := true, remainingAfterPush := ["c1"]
    reconOutcome := fun _ => ReconOutcome.picked
    popOk := true }

/-- CLI environment whose first cherry-pick reports a merge conflict. -/
def cliEnvConflict : CliEnv :=
  { cliEnvA with
    pending := 2
    rawInput := "2"
    commitList := ["c1", "c2"]
    pickOutcome := fun c =>
      if c = "c1" then PickOutcome.conflictFail else PickOutcome.picked false }

/-- C4: claimed — on a conflicted cherry-pick the engine offers exactly
four resolutions (mainline side, staging side, abort, skip) rather than
unconditionally aborting.  True of the GUI engine, proven here in amended
form: the GUI resolution dialog accepts exactly the four answers 1..4
(mapped to ours/theirs/abort/skip; abort rolls the pick back and raises a
fatal error, skip rolls back only that commit and continues), while the
CLI engine unconditionally aborts the cherry-pick and raises on any
conflict. -/
theorem c4_conflict_resolutions :
    (∀ s, s ≠ "" → py_strip s = "1" →
      choose_conflict_resolution (some s) = Except.ok Resolution.ours) ∧
    (∀ s, s ≠ "" → py_strip s = "2" →
      choose_conflict_resolution (some s) = Except.ok Resolution.theirs) ∧
    (∀ s, s ≠ "" → py_strip s = "3" →
      choose_conflict_resolution (some s) = Except.ok Resolution.abortAll) ∧
    (∀ s, s ≠ "" → py_strip s = "4" →
      choose_conflict_resolution (some s) = Except.ok Resolution.skip) ∧
    (∀ s r, choose_conflict_resolution (some s) = Except.ok r →
      py_strip s = "1" ∨ py_strip s = "2" ∨ py_strip s = "3" ∨ py_strip s = "4") ∧
    (choose_conflict_resolution none = Except.error GMError.conflictResolutionCancelled) ∧
    (∀ (env : GuiEnv) (sm : Bool) (c : CommitId) (rest : List CommitId) (s : LoopSt),
      (sm && !env.stepConfirm c) = false →
      env.pickOutcome c = PickOutcome.conflictFail →
      choose_conflict_resolution (env.conflictAnswer c) = Except.ok Resolution.abortAll →
      gui_replay_loop env sm (c :: rest) s =
        ({ s with trace := s.trace ++ [GitCmd.cherryPickNoCommit c, GitCmd.cherryPickAbort] },
          some GMError.cherryPickAbortedManual)) ∧
    (∀ (env : GuiEnv) (sm : Bool) (c : CommitId) (rest : List CommitId) (s : LoopSt),
      (sm && !env.stepConfirm c) = false →
      env.pickOutcome c = PickOutcome.conflictFail →
      choose_conflict_resolution (env.conflictAnswer c) = Except.ok Resolution.skip →
      gui_replay_loop env sm (c :: rest) s =
        gui_replay_loop env sm rest
          { s with trace := s.trace ++ [GitCmd.cherryPickNoCommit c, GitCmd.cherryPickAbort] }) ∧
    (∀ (env : CliEnv) (c : CommitId) (rest : List CommitId) (s : LoopSt),
      env.pickOutcome c = PickOutcome.conflictFail →
      cli_replay_loop env (c :: rest) s =
        ({ s with trace := s.trace ++ [GitCmd.cherryPickNoCommit c, GitCmd.cherryPickAbort] },
          some (GMError.cherryPickConflicts c))) := by
  refine ⟨?_, ?_, ?_, ?_, ?_, rfl, ?_, ?_, ?_⟩
  · intro s h0 h1
    simp [choose_conflict_resolution, h0, h1]
  · intro s h0 h2
    simp [choose_conflict_resolution, h0, h2]
  · intro s h0 h3
    simp [choose_conflict_resolution, h0, h3]
  · intro s h0 h4
    simp [choose_conflict_resolution, h0, h4]
  · intro s r h
    by_contra hn
    push_neg at hn
    obtain ⟨n1, n2, n3, n4⟩ := hn
    by_cases h0 : s = ""
    · simp [choose_conflict_resolution, h0] at h
    · simp [choose_conflict_resolution, h0, n1, n2, n3, n4] at h
  · intro env sm c rest s hstep hpick hres
    simp [gui_replay_loop, hstep, hpick, hres]
  · intro env sm c rest s hstep hpick hres
    simp [gui_replay_loop, hstep, hpick, hres]
  · intro env c rest s hpick
    simp [cli_replay_loop, hpick]

/-- C4 counterexample: the CLI engine, on a conflicted first cherry-pick,
aborts and raises without offering any resolution: the second commit is
never attempted and nothing is processed. -/
theorem c4_counterexample :
    (cli_move_commits cliEnvConflict).result =
      MoveResult.fatal (GMError.cherryPickConflicts "c1") ∧
    GitCmd.cherryPickAbort ∈ (cli_move_commits cliEnvConflict).trace ∧
    GitCmd.cherryPickNoCommit "c2" ∉ (cli_move_commits cliEnvConflict).trace ∧
    (cli_move_commits cliEnvConflict).processed = [] := by
  decide

/-- C4 witness: the resolution parser accepts a stripped "4" as skip. -/
theorem c4_conflict_resolutions_witness :
    choose_conflict_resolution (some " 4 ") = Except.ok Resolution.skip :=
  c4_conflict_resolutions.2.2.2.1 " 4 " (by decide) (by decide)

/-- The GUI post-push phase changes neither the processed list nor the
mainline history. -/
theorem gui_reconcile_fields (env : GuiEnv) (stashed : Bool) (s : LoopSt)
    (w : List MCommit) :
    (gui_reconcile env stashed s w).processed = s.processed ∧
    (gui_reconcile env stashed s w).mainline = s.mainline := by
  unfold gui_reconcile
  split
  · exact ⟨rfl, rfl⟩
  · split <;> exact ⟨rfl, rfl⟩

/-- The whole GUI post-loop phase changes neither the processed list nor
the mainline history. -/
theorem gui_after_loop_fields (env : GuiEnv) (stashed : Bool) (s : LoopSt)
    (lerr : Option GMError) :
    (gui_after_loop env stashed s lerr).processed = s.processed ∧
    (gui_after_loop env stashed s lerr).mainline = s.mainline := by
  unfold gui_after_loop
  split
  · exact ⟨rfl, rfl⟩
  · split
    · exact ⟨rfl, rfl⟩
    · split
      · exact ⟨rfl, rfl⟩
      · split
        · exact ⟨rfl, rfl⟩
        · exact gui_reconcile_fields env stashed s _

/-- The CLI post-push phase changes neither the processed list nor the
mainline history. -/
theorem cli_reconcile_fields (env : CliEnv) (stashed : Bool) (s : LoopSt)
    (w : List MCommit) :
    (cli_reconcile env stashed s w).processed = s.processed ∧
    (cli_reconcile env stashed s w).mainline = s.mainline := by
  unfold cli_reconcile
  split
  · exact ⟨rfl, rfl⟩
  · split <;> exact ⟨rfl, rfl⟩

/-- The whole CLI post-loop phase changes neither the processed list nor
the mainline history. -/
theorem cli_after_loop_fields (env : CliEnv) (num : Nat) (stashed : Bool) (s : LoopSt)
    (lerr : Option GMError) :
    (cli_after_loop env num stashed s lerr).processed = s.processed ∧
    (cli_after_loop env num stashed s lerr).mainline = s.mainline := by
  unfold cli_after_loop
  split
  · exact ⟨rfl, rfl⟩
  · split
    · exact ⟨rfl, rfl⟩
    · split
      · exact ⟨rfl, rfl⟩
      · exact cli_reconcile_fields env stashed s _

/-- GUI environment in which every cherry-pick succeeds but leaves an
empty index. -/
def guiEnvAllSkip : GuiEnv :=
  { guiEnvA with pickOutcome := fun _ => PickOutcome.picked true }

/-- CLI environment whose first cherry-pick succeeds with an empty index. -/
def cliEnvPickedEmpty : CliEnv :=
  { cliEnvA with
    pending := 2
    rawInput := "2"
    commitList := ["c1", "c2"]
    pickOutcome := fun c =>
      if c = "c1" then PickOutcome.picked true else PickOutcome.picked false }

/-- C3: claimed — a commit whose cherry-pick succeeds but leaves an empty
index is skipped without committing, never enters `processed`, and never
duplicates mainline history.  True of the GUI engine (proven here: such a
commit never enters the processed list, the mainline gains exactly one
fresh commit per processed entry and nothing for skipped ones, and the
loop steps over the commit adding only the cherry-pick attempt to the
trace); amended for the CLI engine, which instead runs `git commit` on the
empty index, and that command's failure aborts the whole move. -/
theorem c3_empty_index_skip :
    (∀ (env : GuiEnv) (c : CommitId),
      env.pickOutcome c = PickOutcome.picked true →
      c ∉ (gui_action_move env).processed) ∧
    (∀ (env : GuiEnv) (sm : Bool) (cs : List CommitId) (s : LoopSt),
      ∃ p, (gui_replay_loop env sm cs s).1.processed = s.processed ++ p ∧
        (gui_replay_loop env sm cs s).1.mainline =
          List.replicate p.length (gui_new_commit env) ++ s.mainline ∧
        ∀ c ∈ p, env.pickOutcome c ≠ PickOutcome.picked true) ∧
    (∀ (env : GuiEnv) (sm : Bool) (c : CommitId) (rest : List CommitId) (s : LoopSt),
      (sm && !env.stepConfirm c) = false →
      env.pickOutcome c = PickOutcome.picked true →
      gui_replay_loop env sm (c :: rest) s =
        gui_replay_loop env sm rest
          { s with trace := s.trace ++ [GitCmd.cherryPickNoCommit c] }) ∧
    (∀ (env : CliEnv) (c : CommitId) (rest : List CommitId) (s : LoopSt),
      env.pickOutcome c = PickOutcome.picked true →
      cli_replay_loop env (c :: rest) s =
        ({ s with trace := s.trace ++ [GitCmd.cherryPickNoCommit c] },
          some (GMError.commitNothingToCommit c))) := by
  refine ⟨?_, ?_, ?_, ?_⟩
  · intro env c hc
    rcases gui_action_move_shape env with ⟨r, hr⟩ | ⟨num, stashed0, tr0, hd, hg, hr⟩
    · rw [hr]
      simp [gui_base_run]
    · rw [hr]
      unfold gui_with_guard
      by_cases hcm : env.commitList.take num = []
      · rw [if_pos hcm]
        simp [gui_base_run]
      · rw [if_neg hcm]
        cases hloop : gui_replay_loop env (if num > 1 then env.stepAnswer else false)
            (env.commitList.take num)
            { processed := [], mainline := env.initialMainline
              trace := tr0 ++ [GitCmd.checkout env.baseBranch] } with
        | mk s1 lerr =>
          dsimp only
          obtain ⟨p, tl, hp1, hp2, hp3, hp4, hp5⟩ := gui_replay_loop_spec env
            (if num > 1 then env.stepAnswer else false) (env.commitList.take num)
            { processed := [], mainline := env.initialMainline
              trace := tr0 ++ [GitCmd.checkout env.baseBranch] }
          rw [hloop] at hp1
          dsimp only at hp1
          rw [(gui_after_loop_fields env stashed0 s1 lerr).1, hp1]
          simp only [List.nil_append]
          intro hmem
          exact hp5 c hmem hc
  · intro env sm cs s
    obtain ⟨p, tl, hp1, hp2, hp3, hp4, hp5⟩ := gui_replay_loop_spec env sm cs s
    exact ⟨p, hp1, hp2, hp5⟩
  · intro env sm c rest s hstep hpick
    simp [gui_replay_loop, hstep, hpick]
  · intro env c rest s hpick
    simp [cli_replay_loop, hpick]

/-- C3 counterexample: in the CLI engine a cherry-pick that succeeds with
an empty index is not skipped — the unconditional `git commit` fails and
the move aborts; the next commit is never attempted. -/
theorem c3_counterexample :
    (cli_move_commits cliEnvPickedEmpty).result =
      MoveResult.fatal (GMError.commitNothingToCommit "c1") ∧
    GitCmd.cherryPickNoCommit "c2" ∉ (cli_move_commits cliEnvPickedEmpty).trace ∧
    (cli_move_commits cliEnvPickedEmpty).processed = [] := by
  decide

/-- C3 witness: in a GUI run where every pick leaves an empty index, the
first commit never enters the processed list. -/
theorem c3_empty_index_skip_witness :
    "c1" ∉ (gui_action_move guiEnvAllSkip).processed :=
  c3_empty_index_skip.1 guiEnvAllSkip "c1" (by decide)

/-- A no-op GUI ending implies validation and push never ran. -/
theorem gui_after_loop_noop (env : GuiEnv) (stashed : Bool) (s : LoopSt)
    (lerr : Option GMError) :
    (gui_after_loop env stashed s lerr).result = MoveResult.noOp →
    (gui_after_loop env stashed s lerr).validationRan = false ∧
    (gui_after_loop env stashed s lerr).pushRan = false := by
  unfold gui_after_loop
  split
  · intro h; simp at h
  · split
    · intro _; exact ⟨rfl, rfl⟩
    · split
      · intro h; simp at h
      · split
        · intro h; simp at h
        · intro h
          obtain ⟨t, -, -, -, -, h5⟩ :=
            gui_reconcile_trace env stashed s (s.mainline.take s.processed.length)
          exact absurd h h5

/-- The CLI post-push phase always reports that validation ran. -/
theorem cli_reconcile_validation_ran (env : CliEnv) (stashed : Bool) (s : LoopSt)
    (w : List MCommit) : (cli_reconcile env stashed s w).validationRan = true := by
  unfold cli_reconcile
  split
  · rfl
  · split <;> rfl

/-- CLI environment in which the only commit is skipped by the sequencer
(already applied) and the untouched mainline tip happens to satisfy
validation. -/
def cliEnvAllEmptySkip : CliEnv :=
  { cliEnvA with
    pickOutcome := fun _ => PickOutcome.emptyFail
    initialMainline := [⟨"2026-10-12", "a", "e"⟩]
    remainingAfterPush := [] }

/-- C6: claimed — if `processed` is empty after the replay loop, the move
is a no-op: return to the original branch, pop any stash, stop without
validation and without pushing.  True of the GUI engine (first two
conjuncts); amended for the CLI engine, which has no empty-processed
check: whenever its replay loop completes without error, validation runs
regardless of whether anything was processed (third conjunct; the
counterexample shows it even pushing with nothing processed). -/
theorem c6_noop_on_empty_processed :
    (∀ (env : GuiEnv) (stashed : Bool) (s : LoopSt), s.processed = [] →
      (gui_after_loop env stashed s none).result = MoveResult.noOp ∧
      (gui_after_loop env stashed s none).validationRan = false ∧
      (gui_after_loop env stashed s none).pushRan = false ∧
      (gui_after_loop env stashed s none).trace =
        s.trace ++ [GitCmd.checkout env.currentBranch] ++
          (if stashed then [GitCmd.stashPop] else [])) ∧
    (∀ env : GuiEnv, (gui_action_move env).result = MoveResult.noOp →
      (gui_action_move env).validationRan = false ∧
      (gui_action_move env).pushRan = false) ∧
    (∀ (env : CliEnv) (num : Nat) (stashed : Bool) (s : LoopSt),
      (cli_after_loop env num stashed s none).validationRan = true) := by
  refine ⟨?_, ?_, ?_⟩
  · intro env stashed s hp
    have hlen : s.processed.length = 0 := by rw [hp]; rfl
    unfold gui_after_loop
    rw [if_pos hlen]
    exact ⟨rfl, rfl, rfl, rfl⟩
  · intro env h
    rcases gui_action_move_shape env with ⟨r, hr⟩ | ⟨num, stashed0, tr0, hd, hg, hr⟩
    · rw [hr]
      simp [gui_base_run]
    · rw [hr] at h ⊢
      unfold gui_with_guard at h ⊢
      by_cases hcm : env.commitList.take num = []
      · rw [if_pos hcm] at h
        simp [gui_base_run] at h
      · rw [if_neg hcm] at h ⊢
        cases hloop : gui_replay_loop env (if num > 1 then env.stepAnswer else false)
            (env.commitList.take num)
            { processed := [], mainline := env.initialMainline
              trace := tr0 ++ [GitCmd.checkout env.baseBranch] } with
        | mk s1 lerr =>
          dsimp only at h ⊢
          rw [hloop] at h
          dsimp only at h
          exact gui_after_loop_noop env stashed0 s1 lerr h
  · intro env num stashed s
    unfold cli_after_loop
    cases hval : pre_push_validation env.remoteHeadLine env.baseBranch
        (s.mainline.take num) env.localToday env.cfgEmail env.cfgName with
    | some e => rfl
    | none =>
      by_cases hpush : (!env.pushOk) = true
      · rw [if_pos hpush]
      · rw [if_neg hpush]
        exact cli_reconcile_validation_ran env stashed s _

/-- C6 counterexample: a CLI run in which every commit is skipped ends with
an empty processed list, yet validation runs and the push happens — the
claimed "stop without validation and without pushing" fails for the CLI
engine. -/
theorem c6_counterexample :
    (cli_move_commits cliEnvAllEmptySkip).processed = [] ∧
    (cli_move_commits cliEnvAllEmptySkip).validationRan = true ∧
    (cli_move_commits cliEnvAllEmptySkip).pushRan = true ∧
    (cli_move_commits cliEnvAllEmptySkip).result = MoveResult.success := by
  decide

/-- C6 witness: the GUI no-op exit at a concrete empty-processed state with
a stash. -/
theorem c6_noop_on_empty_processed_witness :
    (gui_after_loop guiEnvA true
        ⟨[], [], [GitCmd.checkout "main"]⟩ none).result = MoveResult.noOp ∧
    (gui_after_loop guiEnvA true
        ⟨[], [], [GitCmd.checkout "main"]⟩ none).validationRan = false ∧
    (gui_after_loop guiEnvA true
        ⟨[], [], [GitCmd.checkout "main"]⟩ none).pushRan = false ∧
    (gui_after_loop guiEnvA true
        ⟨[], [], [GitCmd.checkout "main"]⟩ none).trace =
      [GitCmd.checkout "main"] ++ [GitCmd.checkout guiEnvA.currentBranch] ++
        (if true then [GitCmd.stashPop] else []) :=
  c6_noop_on_empty_processed.1 guiEnvA true ⟨[], [], [GitCmd.checkout "main"]⟩ rfl

/-- The final stash restore appends no dated commit command. -/
theorem gui_finish_stash_trace_cmds (env : GuiEnv) (stashed : Bool) (tr : List GitCmd)
    (s : LoopSt) (w : List MCommit) :
    ∃ t, (gui_finish_stash env stashed tr s w).trace = tr ++ t ∧
      ∀ d, GitCmd.commitWithDates d ∉ t := by
  cases stashed
  · exact ⟨[], by simp [gui_finish_stash], by intro d; simp⟩
  · refine ⟨[GitCmd.checkout env.currentBranch, GitCmd.stashPop],
      by simp [gui_finish_stash], ?_⟩
    intro d
    simp

/-- CLI environment whose reconciliation meets an already-applied (empty)
remaining commit. -/
def cliEnvReconEmpty : CliEnv :=
  { cliEnvA with
    remainingAfterPush := ["r1"]
    reconOutcome := fun _ => ReconOutcome.emptyFail }

/-- C5: claimed — after a successful push, if remaining commits exist the
staging branch is reset to the mainline tip and each remaining commit is
replayed in order via plain cherry-pick with no re-dating; an
empty-diff remaining commit is skipped via the sequencer rather than
erroring, a genuine conflict is fatal; with no remaining commits staging
is reset directly.  True of the GUI engine (conjuncts on
`gui_reconcile` / `gui_rewrite_loop`); amended for the CLI engine, whose
reconciliation has no empty-diff skip: any cherry-pick failure there,
including an already-applied empty commit, aborts and is fatal (last
conjunct). -/
theorem c5_reconciliation :
    (∀ (env : GuiEnv) (stashed : Bool) (s : LoopSt) (w : List MCommit),
      env.remainingAfterPush = [] →
      gui_reconcile env stashed s w =
        gui_finish_stash env stashed
          (s.trace ++ [GitCmd.push env.baseBranch] ++
            (if env.backupOk then [GitCmd.branchCreate env.backupName "local_commit"] else []) ++
            [GitCmd.checkout "local_commit", GitCmd.resetHard env.baseBranch]) s w) ∧
    (∀ (env : GuiEnv) (cs : List CommitId) (tr : List GitCmd),
      ∃ t, (gui_rewrite_loop env cs tr).1 = tr ++ t ∧
        (∀ d, GitCmd.commitWithDates d ∉ t) ∧ (∀ b, GitCmd.stashPush b ∉ t)) ∧
    (∀ (env : GuiEnv) (c : CommitId) (rest : List CommitId) (tr : List GitCmd),
      env.reconOutcome c = ReconOutcome.picked →
      gui_rewrite_loop env (c :: rest) tr =
        gui_rewrite_loop env rest (tr ++ [GitCmd.cherryPickPlain c])) ∧
    (∀ (env : GuiEnv) (c : CommitId) (rest : List CommitId) (tr : List GitCmd),
      env.reconOutcome c = ReconOutcome.emptyFail →
      gui_rewrite_loop env (c :: rest) tr =
        gui_rewrite_loop env rest (tr ++ [GitCmd.cherryPickPlain c, GitCmd.cherryPickSkip])) ∧
    (∀ (env : GuiEnv) (c : CommitId) (rest : List CommitId) (tr : List GitCmd),
      env.reconOutcome c = ReconOutcome.conflictFail →
      gui_rewrite_loop env (c :: rest) tr =
        (tr ++ [GitCmd.cherryPickPlain c, GitCmd.cherryPickAbort],
          some (GMError.rewriteConflict c))) ∧
    (∀ (env : GuiEnv) (stashed : Bool) (s : LoopSt) (w : List MCommit),
      env.remainingAfterPush ≠ [] →
      ∃ t, (gui_reconcile env stashed s w).trace =
        s.trace ++ [GitCmd.push env.baseBranch] ++
          (if env.backupOk then [GitCmd.branchCreate env.backupName "local_commit"] else []) ++
          [GitCmd.checkout "local_commit", GitCmd.resetHard env.baseBranch] ++ t ∧
        (∀ d, GitCmd.commitWithDates d ∉ t)) ∧
    (∀ (env : CliEnv) (c : CommitId) (rest : List CommitId) (tr : List GitCmd),
      env.reconOutcome c = ReconOutcome.emptyFail →
      cli_rewrite_loop env (c :: rest) tr =
        (tr ++ [GitCmd.cherryPickPlain c, GitCmd.cherryPickAbort],
          some (GMError.rewriteConflict c))) := by
  refine ⟨?_, ?_, ?_, ?_, ?_, ?_, ?_⟩
  · intro env stashed s w hrem
    unfold gui_reconcile
    rw [if_pos hrem]
  · intro env cs tr
    obtain ⟨t, h1, h2⟩ := gui_rewrite_loop_spec env cs tr
    refine ⟨t, h1, ?_, ?_⟩
    · intro d hd
      have := h2 _ hd
      simp [is_rewrite_cmd] at this
    · intro b hb
      have := h2 _ hb
      simp [is_rewrite_cmd] at this
  · intro env c rest tr hrec
    simp [gui_rewrite_loop, hrec]
  · intro env c rest tr hrec
    simp [gui_rewrite_loop, hrec]
  · intro env c rest tr hrec
    simp [gui_rewrite_loop, hrec]
  · intro env stashed s w hrem
    unfold gui_reconcile
    rw [if_neg hrem]
    obtain ⟨trw, hw1, hw2⟩ := gui_rewrite_loop_spec env env.remainingAfterPush
      (s.trace ++ [GitCmd.push env.baseBranch] ++
        (if env.backupOk then [GitCmd.branchCreate env.backupName "local_commit"] else []) ++
        [GitCmd.checkout "local_commit", GitCmd.resetHard env.baseBranch])
    cases hres : gui_rewrite_loop env env.remainingAfterPush
        (s.trace ++ [GitCmd.push env.baseBranch] ++
          (if env.backupOk then [GitCmd.branchCreate env.backupName "local_commit"] else []) ++
          [GitCmd.checkout "local_commit", GitCmd.resetHard env.baseBranch]) with
    | mk trw2 lerr =>
      rw [hres] at hw1
      dsimp only at hw1
      cases lerr with
      | some e =>
        dsimp only
        refine ⟨trw, by rw [hw1], ?_⟩
        intro d hd
        have := hw2 _ hd
        simp [is_rewrite_cmd] at this
      | none =>
        dsimp only
        obtain ⟨t2, h1, h2⟩ := gui_finish_stash_trace_cmds env stashed trw2 s w
        refine ⟨trw ++ t2, by rw [h1, hw1]; simp, ?_⟩
        intro d hd
        rcases List.mem_append.mp hd with hd | hd
        · have := hw2 _ hd
          simp [is_rewrite_cmd] at this
        · exact h2 d hd
  · intro env c rest tr hrec
    simp [cli_rewrite_loop, hrec]

/-- C5 counterexample: in the CLI engine an already-applied (empty)
remaining commit during reconciliation is treated as a fatal conflict
("Resolve manually"), not skipped via the sequencer — and this happens
after the push already succeeded. -/
theorem c5_counterexample :
    (cli_move_commits cliEnvReconEmpty).result =
      MoveResult.fatal (GMError.rewriteConflict "r1") ∧
    (cli_move_commits cliEnvReconEmpty).pushRan = true ∧
    GitCmd.cherryPickSkip ∉ (cli_move_commits cliEnvReconEmpty).trace := by
  decide

/-- C5 witness: the GUI rewrite loop steps over an empty remaining commit
via the sequencer at a concrete input. -/
theorem c5_reconciliation_witness :
    gui_rewrite_loop guiEnvA ["r1"] [] =
      gui_rewrite_loop guiEnvA []
        ([] ++ [GitCmd.cherryPickPlain "r1", GitCmd.cherryPickSkip]) :=
  c5_reconciliation.2.2.2.1 guiEnvA "r1" [] [] (by decide)

/-- Validation errors among the move errors: wrong remote default branch,
wrong author date, wrong author email, wrong author name. -/
def is_validation_error : GMError → Bool
  | GMError.remoteHeadMismatch _ _ => true
  | GMError.authorDatesNotToday _ => true
  | GMError.authorEmailMismatch _ => true
  | GMError.authorNameMismatch _ => true
  | _ => false

/-- The GUI rewrite loop only ever fails with a rewrite conflict. -/
theorem gui_rewrite_loop_err (env : GuiEnv) :
    ∀ (cs : List CommitId) (tr : List GitCmd) (e : GMError),
      (gui_rewrite_loop env cs tr).2 = some e →
      ∃ c, e = GMError.rewriteConflict c := by
  intro cs
  induction cs with
  | nil =>
    intro tr e h
    simp [gui_rewrite_loop] at h
  | cons c rest ih =>
    intro tr e h
    cases hrec : env.reconOutcome c with
    | picked =>
      rw [show gui_rewrite_loop env (c :: rest) tr =
          gui_rewrite_loop env rest (tr ++ [GitCmd.cherryPickPlain c]) by
          simp [gui_rewrite_loop, hrec]] at h
      exact ih _ e h
    | emptyFail =>
      rw [show gui_rewrite_loop env (c :: rest) tr =
          gui_rewrite_loop env rest
            (tr ++ [GitCmd.cherryPickPlain c, GitCmd.cherryPickSkip]) by
          simp [gui_rewrite_loop, hrec]] at h
      exact ih _ e h
    | conflictFail =>
      simp [gui_rewrite_loop, hrec] at h
      exact ⟨c, h.symm⟩

/-- The GUI post-push phase ends either in success or in a rewrite
conflict, and it always reports the validated window it was given. -/
theorem gui_reconcile_result (env : GuiEnv) (stashed : Bool) (s : LoopSt)
    (w : List MCommit) :
    ((gui_reconcile env stashed s w).result = MoveResult.success ∨
      ∃ c, (gui_reconcile env stashed s w).result =
        MoveResult.fatal (GMError.rewriteConflict c)) ∧
    (gui_reconcile env stashed s w).validated = w ∧
    (gui_reconcile env stashed s w).validationRan = true := by
  unfold gui_reconcile
  split
  · exact ⟨Or.inl rfl, rfl, rfl⟩
  · split
    · rename_i trw e heq
      have h2 := congrArg Prod.snd heq
      dsimp only at h2
      obtain ⟨c, hc⟩ := gui_rewrite_loop_err env env.remainingAfterPush _ e h2
      exact ⟨Or.inr ⟨c, by rw [hc]⟩, rfl, rfl⟩
    · exact ⟨Or.inl rfl, rfl, rfl⟩

/-- When the GUI post-loop phase reports that validation ran, the window it
validated is the last `len(processed)` commits of the mainline branch. -/
theorem gui_after_loop_validated (env : GuiEnv) (stashed : Bool) (s : LoopSt)
    (lerr : Option GMError) :
    (gui_after_loop env stashed s lerr).validationRan = true →
    (gui_after_loop env stashed s lerr).validated =
      s.mainline.take s.processed.length := by
  unfold gui_after_loop
  split
  · intro h; simp at h
  · split
    · intro h; simp at h
    · split
      · intro _; rfl
      · split
        · intro _; rfl
        · intro _
          exact (gui_reconcile_result env stashed s _).2.1

/-- A GUI validation failure happens strictly before the push: the phase
appends nothing to the trace, pushes nothing, and leaves processed list
and mainline as the loop left them. -/
theorem gui_after_loop_validation_failure (env : GuiEnv) (stashed : Bool)
    (s : LoopSt) (lerr : Option GMError) (e : GMError)
    (hve : is_validation_error e = true) :
    (gui_after_loop env stashed s lerr).result = MoveResult.fatal e →
    (gui_after_loop env stashed s lerr).validationRan = true →
    (gui_after_loop env stashed s lerr).pushRan = false ∧
    (gui_after_loop env stashed s lerr).trace = s.trace ∧
    (gui_after_loop env stashed s lerr).mainline = s.mainline := by
  unfold gui_after_loop
  split
  · intro _ hran; simp at hran
  · split
    · intro _ hran; simp at hran
    · split
      · intro _ _; exact ⟨rfl, rfl, rfl⟩
      · split
        · intro hres _
          exfalso
          simp only [MoveResult.fatal.injEq] at hres
          rw [← hres] at hve
          simp [is_validation_error] at hve
        · intro hres _
          exfalso
          rcases (gui_reconcile_result env stashed s _).1 with hok | ⟨c, hc⟩
          · rw [hres] at hok
            simp at hok
          · rw [hres] at hc
            simp only [MoveResult.fatal.injEq] at hc
            rw [hc] at hve
            simp [is_validation_error] at hve

/-- The CLI post-push phase reports the validated window it was given. -/
theorem cli_reconcile_validated (env : CliEnv) (stashed : Bool) (s : LoopSt)
    (w : List MCommit) : (cli_reconcile env stashed s w).validated = w := by
  unfold cli_reconcile
  split
  · rfl
  · split <;> rfl

/-- When the CLI post-loop phase reports that validation ran, the window it
validated is the last `num` commits of the mainline branch — `num` being
the user's target count, not the number of commits created. -/
theorem cli_after_loop_validated (env : CliEnv) (num : Nat) (stashed : Bool)
    (s : LoopSt) (lerr : Option GMError) :
    (cli_after_loop env num stashed s lerr).validationRan = true →
    (cli_after_loop env num stashed s lerr).validated = s.mainline.take num := by
  unfold cli_after_loop
  split
  · intro h; simp at h
  · split
    · intro _; rfl
    · split
      · intro _; rfl
      · intro _
        exact cli_reconcile_validated env stashed s _

/-- Validated-window characterization for the CLI guarded tail. -/
theorem cli_with_guard_validated (env : CliEnv) (num : Nat) (stashed : Bool)
    (tr0 : List GitCmd) :
    (cli_with_guard env num stashed tr0).validationRan = true →
    (cli_with_guard env num stashed tr0).validated =
      (cli_with_guard env num stashed tr0).mainline.take num := by
  unfold cli_with_guard
  by_cases hcm : env.commitList.take num = []
  · rw [if_pos hcm]
    intro h
    simp [cli_base_run] at h
  · rw [if_neg hcm]
    cases hloop : cli_replay_loop env (env.commitList.take num)
        { processed := [], mainline := env.initialMainline
          trace := tr0 ++ [GitCmd.checkout env.baseBranch] } with
    | mk s1 lerr =>
      dsimp only
      intro h
      rw [cli_after_loop_validated env num stashed s1 lerr h,
        (cli_after_loop_fields env num stashed s1 lerr).2]

/-- CLI environment in which the second commit is skipped as already
applied, leaving an old pre-existing mainline commit inside the
validation window. -/
def cliEnvSkipOldDate : CliEnv :=
  { cliEnvA with
    pending := 2
    rawInput := "2"
    commitList := ["c1", "c2"]
    pickOutcome := fun c =>
      if c = "c2" then PickOutcome.emptyFail else PickOutcome.picked false
    initialMainline := [⟨"2020-01-01", "Old", "old@x"⟩] }
/-- C1: claimed — pre-push validation runs only over `processed`, and a
validation failure is fatal before the push, leaving mainline holding the
new unpushed commits with no auto-revert.  True of the GUI engine: when
validation runs, the window it reads is exactly one freshly created commit
per processed entry, sitting on top of the untouched initial mainline
(first conjunct), and a validation failure means no push, the created
commits still on mainline, and no reset or stash pop (second conjunct).
Amended for the CLI engine: its validation window is the last
`targetCount` commits of mainline (third conjunct), which contains
pre-existing commits whenever part of the working set was skipped. -/
theorem c1_validation_scope :
    (∀ env : GuiEnv, (gui_action_move env).validationRan = true →
      (gui_action_move env).validated =
        List.replicate (gui_action_move env).processed.length (gui_new_commit env) ∧
      (gui_action_move env).mainline =
        (gui_action_move env).validated ++ env.initialMainline) ∧
    (∀ (env : GuiEnv) (e : GMError), is_validation_error e = true →
      (gui_action_move env).result = MoveResult.fatal e →
      (gui_action_move env).validationRan = true →
      (gui_action_move env).pushRan = false ∧
      (gui_action_move env).mainline =
        List.replicate (gui_action_move env).processed.length (gui_new_commit env) ++
          env.initialMainline ∧
      GitCmd.resetHard env.baseBranch ∉ (gui_action_move env).trace ∧
      GitCmd.stashPop ∉ (gui_action_move env).trace) ∧
    (∀ env : CliEnv, (cli_move_commits env).validationRan = true →
      (cli_move_commits env).validated =
        (cli_move_commits env).mainline.take (py_int env.rawInput)) := by
  refine ⟨?_, ?_, ?_⟩
  · intro env hran
    rcases gui_action_move_shape env with ⟨r, hr⟩ | ⟨num, stashed0, tr0, hd, hg, hr⟩
    · rw [hr] at hran
      simp [gui_base_run] at hran
    · rw [hr] at hran ⊢
      unfold gui_with_guard at hran ⊢
      by_cases hcm : env.commitList.take num = []
      · rw [if_pos hcm] at hran
        simp [gui_base_run] at hran
      · rw [if_neg hcm] at hran ⊢
        dsimp only at hran ⊢
        obtain ⟨p, tl, hp1, hp2, hp3, hp4, hp5⟩ := gui_replay_loop_spec env
          (if num > 1 then env.stepAnswer else false) (env.commitList.take num)
          { processed := [], mainline := env.initialMainline
            trace := tr0 ++ [GitCmd.checkout env.baseBranch] }
        dsimp only at hp1 hp2
        rw [List.nil_append] at hp1
        have hval := gui_after_loop_validated env stashed0 _ _ hran
        have hf := gui_after_loop_fields env stashed0
          (gui_replay_loop env (if num > 1 then env.stepAnswer else false)
            (env.commitList.take num)
            { processed := [], mainline := env.initialMainline
              trace := tr0 ++ [GitCmd.checkout env.baseBranch] }).1
          (gui_replay_loop env (if num > 1 then env.stepAnswer else false)
            (env.commitList.take num)
            { processed := [], mainline := env.initialMainline
              trace := tr0 ++ [GitCmd.checkout env.baseBranch] }).2
        rw [hval, hf.1, hf.2, hp1, hp2]
        constructor
        · exact List.take_left' (by simp)
        · rw [List.take_left' (by simp)]
  · intro env e hve hres hran
    rcases gui_action_move_shape env with ⟨r, hr⟩ | ⟨num, stashed0, tr0, hd, hg, hr⟩
    · rw [hr] at hran
      simp [gui_base_run] at hran
    · rw [hr] at hres hran ⊢
      unfold gui_with_guard at hres hran ⊢
      by_cases hcm : env.commitList.take num = []
      · rw [if_pos hcm] at hran
        simp [gui_base_run] at hran
      · rw [if_neg hcm] at hres hran ⊢
        dsimp only at hres hran ⊢
        obtain ⟨hpush, htr, hml⟩ :=
          gui_after_loop_validation_failure env stashed0 _ _ e hve hres hran
        obtain ⟨p, tl, hp1, hp2, hp3, hp4, hp5⟩ := gui_replay_loop_spec env
          (if num > 1 then env.stepAnswer else false) (env.commitList.take num)
          { processed := [], mainline := env.initialMainline
            trace := tr0 ++ [GitCmd.checkout env.baseBranch] }
        dsimp only at hp1 hp2 hp3
        rw [List.nil_append] at hp1
        have hf := gui_after_loop_fields env stashed0
          (gui_replay_loop env (if num > 1 then env.stepAnswer else false)
            (env.commitList.take num)
            { processed := [], mainline := env.initialMainline
              trace := tr0 ++ [GitCmd.checkout env.baseBranch] }).1
          (gui_replay_loop env (if num > 1 then env.stepAnswer else false)
            (env.commitList.take num)
            { processed := [], mainline := env.initialMainline
              trace := tr0 ++ [GitCmd.checkout env.baseBranch] }).2
        obtain ⟨hg1, -, -, -⟩ := gui_tree_guard_spec env stashed0 tr0 hg
        refine ⟨hpush, ?_, ?_, ?_⟩
        · rw [hf.2, hf.1, hp1, hp2]
        · rw [htr, hp3]
          intro hmem
          simp only [List.mem_append, List.mem_cons, List.not_mem_nil, or_false] at hmem
          rcases hmem with (hmem | hmem) | hmem
          · have := hg1 _ hmem
            simp [is_guard_cmd] at this
          · simp at hmem
          · have := hp4 _ hmem
            simp [is_replay_cmd] at this
        · rw [htr, hp3]
          intro hmem
          simp only [List.mem_append, List.mem_cons, List.not_mem_nil, or_false] at hmem
          rcases hmem with (hmem | hmem) | hmem
          · have := hg1 _ hmem
            simp [is_guard_cmd] at this
          · simp at hmem
          · have := hp4 _ hmem
            simp [is_replay_cmd] at this
  · intro env hran
    rcases cli_move_commits_shape env with ⟨r, hr⟩ | ⟨-, hr⟩ | ⟨-, hr⟩
    · rw [hr] at hran
      simp [cli_base_run] at hran
    · rw [hr] at hran ⊢
      exact cli_with_guard_validated env (py_int env.rawInput) false [] hran
    · rw [hr] at hran ⊢
      exact cli_with_guard_validated env (py_int env.rawInput) true [GitCmd.stashPush true] hran

/-- C1 counterexample: with one commit skipped, the CLI validation window
is not the processed-created commits — it reaches a pre-existing 2020
commit and fails on its date even though the single processed commit is
dated today; the push is blocked by a stale commit the run never touched. -/
theorem c1_counterexample :
    (cli_move_commits cliEnvSkipOldDate).validationRan = true ∧
    (cli_move_commits cliEnvSkipOldDate).processed = ["c1"] ∧
    (⟨"2020-01-01", "Old", "old@x"⟩ : MCommit) ∈
      (cli_move_commits cliEnvSkipOldDate).validated ∧
    (cli_move_commits cliEnvSkipOldDate).validated ≠
      List.replicate (cli_move_commits cliEnvSkipOldDate).processed.length
        (cli_new_commit cliEnvSkipOldDate) ∧
    (cli_move_commits cliEnvSkipOldDate).result =
      MoveResult.fatal (GMError.authorDatesNotToday 1) ∧
    (cli_move_commits cliEnvSkipOldDate).pushRan = false := by
  decide

/-- C1 witness: on a concrete successful GUI run the validated window is
exactly the one freshly created commit per processed entry. -/
theorem c1_validation_scope_witness :
    (gui_action_move guiEnvA).validated =
      List.replicate (gui_action_move guiEnvA).processed.length (gui_new_commit guiEnvA) ∧
    (gui_action_move guiEnvA).mainline =
      (gui_action_move guiEnvA).validated ++ guiEnvA.initialMainline :=
  c1_validation_scope.1 guiEnvA (by decide)

/-- Exact length of the digit list produced by `Nat.toDigitsCore` for a
number with `e + 1` decimal digits and enough fuel. -/
theorem toDigitsCore_len (e : Nat) : ∀ (f n : Nat) (l : List Char),
    10 ^ e ≤ n → n < 10 ^ (e + 1) → e + 1 ≤ f →
    (Nat.toDigitsCore 10 f n l).length = l.length + e + 1 := by
  induction e with
  | zero =>
    intro f n l h1 h2 hf
    match f, hf with
    | f + 1, _ =>
      have h0 : n / 10 = 0 := Nat.div_eq_of_lt (by simpa using h2)
      simp [Nat.toDigitsCore, h0]
  | succ e ih =>
    intro f n l h1 h2 hf
    match f, hf with
    | f + 1, hf =>
      have h10 : 10 ≤ n := by
        calc 10 = 10 ^ 1 := by norm_num
        _ ≤ 10 ^ (e + 1) := Nat.pow_le_pow_right (by norm_num) (by omega)
        _ ≤ n := h1
      have hne : ¬ (n / 10 = 0) := by
        intro hz
        have := Nat.div_eq_of_lt (show n < 10 by omega)
        omega
      have hd1 : 10 ^ e ≤ n / 10 := by
        rw [Nat.le_div_iff_mul_le (by norm_num)]
        calc 10 ^ e * 10 = 10 ^ (e + 1) := by ring
        _ ≤ n := h1
      have hd2 : n / 10 < 10 ^ (e + 1) := by
        rw [Nat.div_lt_iff_lt_mul (by norm_num)]
        calc n < 10 ^ (e + 1 + 1) := h2
        _ = 10 ^ (e + 1) * 10 := by ring
      have hrec := ih f (n / 10) (Nat.digitChar (n % 10) :: l) hd1 hd2 (by omega)
      simp only [Nat.toDigitsCore, hne, if_false]
      rw [hrec]
      simp [List.length]
      omega

/-- Exact length of the decimal representation of a number with `e + 1`
digits. -/
theorem repr_len_of_bounds (e n : Nat) (h1 : 10 ^ e ≤ n) (h2 : n < 10 ^ (e + 1)) :
    (Nat.repr n).length = e + 1 := by
  have := toDigitsCore_len e (n + 1) n [] h1 h2 (by
    have : e < 10 ^ e := Nat.lt_pow_self (by norm_num) e
    omega)
  simpa [Nat.repr, Nat.toDigits, String.length, List.asString] using this

/-- Two-digit zero padding really is two characters wide below 100. -/
theorem pad2_length : ∀ n, n < 100 → (pad2 n).length = 2 := by
  decide

/-- The UTC instant 2026-10-12 23:30:00. -/
def utc0 : PyDateTime := ⟨2026, 10, 12, 23, 30, 0, none⟩

/-- The same instant on a clock 3.5 hours east: 2026-10-13 03:00:00 local
time. -/
def local0 : PyDateTime := ⟨2026, 10, 13, 3, 0, 0, some 210⟩

/-- C10: the GUI's now_iso formats a naive UTC datetime, so %z renders
empty and the timestamp is the bare 19-character "YYYY-MM-DDTHH:MM:SS"
with no timezone marker; the CLI's now_iso renders the same instant with
an explicit "+0000" suffix; the GUI's pre-push "today" (now_iso()[:10]) is
the UTC calendar date while the CLI compares against the local calendar
date — exhibited differing on a concrete instant near midnight UTC. -/
theorem c10_timestamp_formats :
    (∀ t : PyDateTime, gui_now_iso t = fmt_date t ++ "T" ++ fmt_time t) ∧
    (∀ t : PyDateTime, cli_now_iso t = gui_now_iso t ++ "+0000") ∧
    (∀ t : PyDateTime, 1000 ≤ t.year → t.year < 10000 → t.month < 100 →
      t.day < 100 → t.hour < 100 → t.minute < 100 → t.second < 100 →
      (gui_now_iso t).length = 19 ∧ (cli_now_iso t).length = 24 ∧
      gui_today t = fmt_date t) ∧
    (gui_today utc0 = "2026-10-12" ∧ cli_today local0 = "2026-10-13" ∧
      gui_today utc0 ≠ cli_today local0) := by
  have hgui : ∀ t : PyDateTime, gui_now_iso t = fmt_date t ++ "T" ++ fmt_time t := by
    intro t
    show fmt_date _ ++ "T" ++ fmt_time _ ++ fmt_percent_z _ = _
    simp [fmt_percent_z, fmt_date, fmt_time]
  have hdate : ∀ t : PyDateTime, 1000 ≤ t.year → t.year < 10000 → t.month < 100 →
      t.day < 100 → (fmt_date t).length = 10 := by
    intro t hy1 hy2 hm hd
    have hy := repr_len_of_bounds 3 t.year (by norm_num; omega) (by norm_num; omega)
    simp [fmt_date, String.length_append, hy, pad2_length _ hm, pad2_length _ hd]
    decide
  have htime : ∀ t : PyDateTime, t.hour < 100 → t.minute < 100 → t.second < 100 →
      (fmt_time t).length = 8 := by
    intro t hh hm hs
    simp [fmt_time, String.length_append, pad2_length _ hh, pad2_length _ hm,
      pad2_length _ hs]
    decide
  have hcli : ∀ t : PyDateTime, cli_now_iso t = gui_now_iso t ++ "+0000" := by
    intro t
    rw [hgui]
    show fmt_date _ ++ "T" ++ fmt_time _ ++ fmt_percent_z _ = _
    have : fmt_percent_z { t with utcOffsetMinutes := some 0 } = "+0000" := rfl
    rw [this]
    simp [fmt_date, fmt_time]
  refine ⟨hgui, hcli, ?_, by decide, by decide, by decide⟩
  intro t hy1 hy2 hmo hd hh hmi hs
  have h1 : (gui_now_iso t).length = 19 := by
    rw [hgui]
    simp [String.length_append, hdate t hy1 hy2 hmo hd, htime t hh hmi hs]
    decide
  refine ⟨h1, ?_, ?_⟩
  · rw [hcli, String.length_append, h1]
    rfl
  · unfold gui_today
    rw [hgui]
    unfold py_take
    have hlen : ((fmt_date t).data).length = 10 := hdate t hy1 hy2 hmo hd
    have hdata : (fmt_date t ++ "T" ++ fmt_time t).data =
        (fmt_date t).data ++ ("T" ++ fmt_time t).data := by
      simp [String.data_append, List.append_assoc]
    rw [hdata, List.take_left' hlen]

/-- C10 witness: the format facts instantiated at the concrete UTC
instant. -/
theorem c10_timestamp_formats_witness :
    gui_now_iso utc0 = fmt_date utc0 ++ "T" ++ fmt_time utc0 ∧
    cli_now_iso utc0 = gui_now_iso utc0 ++ "+0000" ∧
    (gui_now_iso utc0).length = 19 ∧ (cli_now_iso utc0).length = 24 ∧
    gui_today utc0 = fmt_date utc0 := by
  have h := c10_timestamp_formats.2.2.1 utc0 (by decide) (by decide) (by decide)
    (by decide) (by decide) (by decide) (by decide)
  exact ⟨c10_timestamp_formats.1 utc0, c10_timestamp_formats.2.1 utc0,
    h.1, h.2.1, h.2.2⟩

/-- CLI environment answering the count prompt with "0". -/
def cliEnvRawZero : CliEnv :=
  { cliEnvA with rawInput := "0" }

/-- C7: a target count of zero, above the pending count, or non-numeric is
rejected before any mutation.  CLI: given the pre-checks pass, any such
input yields the fatal "Invalid number" with an empty command trace, no
stash, and the mainline untouched.  GUI: the keypad dialog accepts exactly
the values in [1, pending], and a cancelled dialog ends the move with an
empty trace. -/
theorem c7_input_validation :
    (∀ env : CliEnv, env.localCommitOk = true → env.baseExists = true →
      env.pending ≠ 0 →
      (py_isdigit env.rawInput = false ∨ py_int env.rawInput = 0 ∨
        py_int env.rawInput > env.pending) →
      (cli_move_commits env).result = MoveResult.fatal GMError.invalidNumber ∧
      (cli_move_commits env).trace = [] ∧
      (cli_move_commits env).stashed = false ∧
      (cli_move_commits env).mainline = env.initialMainline ∧
      (cli_move_commits env).pushRan = false) ∧
    (∀ v maxv : Nat, (keypad_on_ok v 1 maxv).isSome = true ↔ 1 ≤ v ∧ v ≤ maxv) ∧
    (∀ env : GuiEnv, env.cfgName ≠ "" → env.cfgEmail ≠ "" →
      env.localCommitOk = true → env.pending ≠ 0 → env.dialogResult = none →
      (gui_action_move env).result = MoveResult.cancelled ∧
      (gui_action_move env).trace = [] ∧
      (gui_action_move env).stashed = false ∧
      (gui_action_move env).mainline = env.initialMainline) := by
  refine ⟨?_, ?_, ?_⟩
  · intro env h1 h2 h3 h4
    unfold cli_move_commits
    rw [if_neg (by simp [h1]), if_neg (by simp [h2]), if_neg h3]
    by_cases hdig : py_isdigit env.rawInput = true
    · rw [if_neg (by simp [hdig])]
      have hnum : py_int env.rawInput = 0 ∨ py_int env.rawInput > env.pending := by
        rcases h4 with h | h | h
        · rw [hdig] at h; cases h
        · exact Or.inl h
        · exact Or.inr h
      rw [if_pos hnum]
      exact ⟨rfl, rfl, rfl, rfl, rfl⟩
    · rw [if_pos (by simp [Bool.not_eq_true] at hdig ⊢; exact hdig)]
      exact ⟨rfl, rfl, rfl, rfl, rfl⟩
  · intro v maxv
    by_cases h : 1 ≤ v ∧ v ≤ maxv
    · simp [keypad_on_ok, h]
    · simp only [keypad_on_ok, if_neg h, Option.isSome_none,
        Bool.false_eq_true, false_iff]
      exact h
  · intro env h1 h2 h3 h4 hd
    unfold gui_action_move
    rw [if_neg (by simp [h1, h2]), if_neg (by simp [h3]), if_neg h4, hd]
    exact ⟨rfl, rfl, rfl, rfl⟩

/-- C7 witness: a concrete "0" answer is rejected with nothing touched. -/
theorem c7_input_validation_witness :
    (cli_move_commits cliEnvRawZero).result = MoveResult.fatal GMError.invalidNumber ∧
    (cli_move_commits cliEnvRawZero).trace = [] ∧
    (cli_move_commits cliEnvRawZero).stashed = false ∧
    (cli_move_commits cliEnvRawZero).mainline = cliEnvRawZero.initialMainline ∧
    (cli_move_commits cliEnvRawZero).pushRan = false :=
  c7_input_validation.1 cliEnvRawZero (by decide) (by decide) (by decide)
    (Or.inr (Or.inl (by decide)))

/-- A freshly created repository: only a local main branch, no remote, no
staging branch, five commits of history. -/
def scanRepoFresh : ScanRepo :=
  { localCommitExists := false
    headsExists := fun b => b = "main"
    originExists := fun _ => false
    countRange := fun _ _ => 0
    countBranch := fun b => if b = "main" then 5 else 0 }

/-- C8: when the current branch equals the detected mainline branch and no
remote tracking branch origin/<mainline> exists, the scanner's pending
count is `rev-list --count <mainline>` — the total number of commits
reachable from the mainline branch, not a staging or remote difference. -/
theorem c8_pending_count_mainline_no_remote :
    ∀ (r : ScanRepo) (base : String), base ≠ "local_commit" →
      r.headsExists base = true → r.originExists base = false →
      pending_count r base base = r.countBranch base := by
  intro r base hb hh ho
  unfold pending_count
  rw [if_neg hb, if_pos rfl, if_neg (by simp [hh]), if_neg (by simp [ho])]

/-- C8 witness: a fresh repository on main with no remote reports its
whole five-commit history as pending. -/
theorem c8_pending_count_mainline_no_remote_witness :
    pending_count scanRepoFresh "main" "main" = scanRepoFresh.countBranch "main" ∧
    pending_count scanRepoFresh "main" "main" = 5 := by
  have h := c8_pending_count_mainline_no_remote scanRepoFresh "main"
    (by decide) (by decide) (by decide)
  exact ⟨h, by rw [h]; decide⟩

/-- GUI environment whose working tree differs only by untracked files. -/
def guiEnvUntracked : GuiEnv :=
  { guiEnvA with tree := ⟨false, false, true⟩ }

/-- C9: the cleanliness check looks only at unstaged and staged changes to
tracked files, so an untracked-only tree counts as clean (first conjunct);
a clean tree means the move proceeds with no stash prompt — no stash is
created and no stash push is ever issued, in either engine (third and
fourth conjuncts) — even though the stash command itself always passes
`-u` to include untracked files (second conjunct). -/
theorem c9_untracked_invisible :
    (∀ u : Bool, is_clean ⟨false, false, u⟩ = true) ∧
    (∀ msg : String, "-u" ∈ stash_args msg) ∧
    (∀ env : GuiEnv, is_clean env.tree = true →
      (gui_action_move env).stashed = false ∧
      ∀ b, GitCmd.stashPush b ∉ (gui_action_move env).trace) ∧
    (∀ env : CliEnv, is_clean env.tree = true →
      (cli_move_commits env).stashed = false ∧
      ∀ b, GitCmd.stashPush b ∉ (cli_move_commits env).trace) := by
  refine ⟨by decide, ?_, ?_, ?_⟩
  · intro msg
    simp [stash_args]
  · intro env hclean
    rcases gui_action_move_shape env with ⟨r, hr⟩ | ⟨num, stashed0, tr0, hd, hg, hr⟩
    · rw [hr]
      constructor
      · rfl
      · intro b
        simp [gui_base_run]
    · obtain ⟨-, -, hg3, -⟩ := gui_tree_guard_spec env stashed0 tr0 hg
      obtain ⟨hs0, htr0⟩ := hg3 hclean
      obtain ⟨t, hw1, hw2, hw3, -⟩ := gui_with_guard_spec env num
        (if num > 1 then env.stepAnswer else false) stashed0 tr0
      rw [hr]
      refine ⟨by rw [hw3, hs0], ?_⟩
      intro b
      rw [hw1, htr0, List.nil_append]
      exact hw2 b
  · intro env hclean
    rcases cli_move_commits_shape env with ⟨r, hr⟩ | ⟨-, hr⟩ | ⟨hdirty, -⟩
    · rw [hr]
      constructor
      · rfl
      · intro b
        simp [cli_base_run]
    · obtain ⟨t, hw1, hw2, hw3, -⟩ := cli_with_guard_spec env (py_int env.rawInput) false []
      rw [hr]
      refine ⟨hw3, ?_⟩
      intro b
      rw [hw1, List.nil_append]
      exact hw2 b
    · rw [hclean] at hdirty
      cases hdirty

/-- C9 witness: an untracked-only tree is reported clean and the concrete
GUI move over it creates no stash and issues no stash push. -/
theorem c9_untracked_invisible_witness :
    (gui_action_move guiEnvUntracked).stashed = false ∧
    GitCmd.stashPush true ∉ (gui_action_move guiEnvUntracked).trace :=
  ⟨(c9_untracked_invisible.2.2.1 guiEnvUntracked (by decide)).1,
    (c9_untracked_invisible.2.2.1 guiEnvUntracked (by decide)).2 true⟩
